import Mathlib

/-!
Verification of the deterministic extraction and merge-safety engine of the
medical-software repository: the header-slice extractor
(`headerSliceExtractor` module), the safe extraction pipeline
(`safeExtractionPipeline.js`: invariant checking, confidence scoring,
field-level confidence, chart-format conversion, conflict detection, and the
merge-decision core of `processDocumentSafe`).

Strings are modelled as Lean `String` / `List Char`; all JavaScript string
operations (`toLowerCase`, `trim`, `split`, `includes`, regex tests) are
re-implemented character by character below, restricted to ASCII case
conversion (every fixed pattern, header and keyword in the source is ASCII).
JavaScript numbers are modelled by exact rationals `ℚ`: every confidence
weight in the source is a multiple of 0.05, and the header-slice scorer
rounds to two decimals, so exact rational arithmetic agrees with the source
on all values compared against the fixed thresholds.  JavaScript truthiness
of an optional string field (`undefined` / `null` / `""` are falsy) is
modelled by `optTruthy` on `Option String`.
-/

set_option maxRecDepth 100000

namespace MedExtract

/-- JS whitespace test used for the regex class `\s` and `String.trim`
(ASCII whitespace plus NBSP; the source's inputs are ASCII text). -/
def isJsSpace (c : Char) : Bool :=
  c = ' ' || c = '\t' || c = '\n' || c = '\r' || c = '\x0b' || c = '\x0c' || c = ' '

/-- ASCII digit test, the regex class `\d` / `[0-9]`. -/
def isDigitC (c : Char) : Bool :=
  decide ('0' ≤ c) && decide (c ≤ '9')

/-- ASCII uppercase test, the regex class `[A-Z]`. -/
def isUpperAZ (c : Char) : Bool :=
  decide ('A' ≤ c) && decide (c ≤ 'Z')

/-- ASCII lowercase test, the regex class `[a-z]`. -/
def isLowerAZ (c : Char) : Bool :=
  decide ('a' ≤ c) && decide (c ≤ 'z')

/-- JS regex word-character class `\w` = `[A-Za-z0-9_]`. -/
def isWordC (c : Char) : Bool :=
  isUpperAZ c || isLowerAZ c || isDigitC c || c = '_'

/-- ASCII lower-casing of one character (JS `toLowerCase` on the ASCII
range, which covers every comparison the source performs). -/
def jsToLowerC (c : Char) : Char :=
  match c with
  | 'A' => 'a' | 'B' => 'b' | 'C' => 'c' | 'D' => 'd' | 'E' => 'e' | 'F' => 'f'
  | 'G' => 'g' | 'H' => 'h' | 'I' => 'i' | 'J' => 'j' | 'K' => 'k' | 'L' => 'l'
  | 'M' => 'm' | 'N' => 'n' | 'O' => 'o' | 'P' => 'p' | 'Q' => 'q' | 'R' => 'r'
  | 'S' => 's' | 'T' => 't' | 'U' => 'u' | 'V' => 'v' | 'W' => 'w' | 'X' => 'x'
  | 'Y' => 'y' | 'Z' => 'z' | c => c

/-- ASCII upper-casing of one character (JS `toUpperCase` on the ASCII range). -/
def jsToUpperC (c : Char) : Char :=
  match c with
  | 'a' => 'A' | 'b' => 'B' | 'c' => 'C' | 'd' => 'D' | 'e' => 'E' | 'f' => 'F'
  | 'g' => 'G' | 'h' => 'H' | 'i' => 'I' | 'j' => 'J' | 'k' => 'K' | 'l' => 'L'
  | 'm' => 'M' | 'n' => 'N' | 'o' => 'O' | 'p' => 'P' | 'q' => 'Q' | 'r' => 'R'
  | 's' => 'S' | 't' => 'T' | 'u' => 'U' | 'v' => 'V' | 'w' => 'W' | 'x' => 'X'
  | 'y' => 'Y' | 'z' => 'Z' | c => c

/-- Character-list lower-casing, JS `str.toLowerCase()`. -/
def lowerL (l : List Char) : List Char := l.map jsToLowerC

/-- String lower-casing. -/
def lowerStr (s : String) : String := String.mk (lowerL s.toList)

/-- JS `String.includes` on character lists: contiguous substring test. -/
def containsSub : List Char → List Char → Bool
  | [], n => n.isEmpty
  | h :: t, n => if (h :: t).take n.length = n then true else containsSub t n

/-- JS `hay.includes(needle)` on strings. -/
def incl (hay needle : String) : Bool := containsSub hay.toList needle.toList

/-- JS `String.trim` on character lists. -/
def jsTrim (l : List Char) : List Char :=
  ((l.dropWhile isJsSpace).reverse.dropWhile isJsSpace).reverse

/-- JS `String.trim` on strings. -/
def trimStr (s : String) : String := String.mk (jsTrim s.toList)

/-- JS `str.split(sep)` for a single separator character: keeps empty
pieces, including leading/trailing ones. -/
def splitChar (sep : Char) : List Char → List (List Char)
  | [] => [[]]
  | c :: t =>
    if c = sep then [] :: splitChar sep t
    else
      match splitChar sep t with
      | [] => [[c]]
      | p :: ps => (c :: p) :: ps

/-- JS `str.split(regexClass)` for a one-character class such as `[\/,]`:
every separator occurrence splits, empty pieces kept. -/
def splitAnyChar (seps : List Char) : List Char → List (List Char)
  | [] => [[]]
  | c :: t =>
    if seps.contains c then [] :: splitAnyChar seps t
    else
      match splitAnyChar seps t with
      | [] => [[c]]
      | p :: ps => (c :: p) :: ps

theorem dropWhile_len_le (p : Char → Bool) :
    ∀ l : List Char, (l.dropWhile p).length ≤ l.length
  | [] => by simp [List.dropWhile]
  | c :: t => by
    simp only [List.dropWhile]
    split
    · exact le_trans (dropWhile_len_le p t) (by simp)
    · simp

/-- Auxiliary for `splitWs`: current piece is accumulated reversed.  The
fuel argument (called with `length + 1`, enough since every step consumes
at least one character) keeps the recursion structural so that it
reduces in the kernel. -/
def splitWsAux : Nat → List Char → List Char → List (List Char)
  | 0, _, cur => [cur.reverse]
  | _ + 1, [], cur => [cur.reverse]
  | fuel + 1, c :: t, cur =>
    if isJsSpace c then cur.reverse :: splitWsAux fuel (t.dropWhile isJsSpace) []
    else splitWsAux fuel t (c :: cur)

/-- JS `str.split(/\s+/)`: a maximal whitespace run is one separator;
a leading or trailing run yields an empty piece, as in JS. -/
def splitWs (l : List Char) : List (List Char) := splitWsAux (l.length + 1) l []

/-- JS `Set.add` followed by `Array.from`: append if not already present
(string sets preserve insertion order). -/
def addUnique (xs : List String) (x : String) : List String :=
  if x ∈ xs then xs else xs ++ [x]

/-- Deduplicate keeping the first occurrence (JS `[...new Set(l)]`). -/
def dedupeKeepFirst (l : List String) : List String := l.foldl addUnique []

/-- Case-insensitive literal-prefix test: does `l` start with pattern
string `a`, ignoring ASCII case? -/
def ciPrefix (a : String) (l : List Char) : Bool :=
  decide (lowerL (l.take a.toList.length) = lowerL a.toList)

/-- Truthiness of a JS string field: `undefined`/`null`/`""` are falsy. -/
def optTruthy : Option String → Bool
  | none => false
  | some s => !(s.toList.isEmpty)

/-- JS `a || b` on two optional string values (first truthy wins,
otherwise the second operand is returned as-is). -/
def jsOrS (a b : Option String) : Option String :=
  if optTruthy a then a else b

/-- Largest index `k ≤` the given bound with `r[k] = '\n'` (regex
backtracking of a greedy `[:\s]*` that must leave a literal `\n`). -/
def findNlDown (r : List Char) : Nat → Option Nat
  | 0 => if r.get? 0 = some '\n' then some 0 else none
  | k + 1 => if r.get? (k + 1) = some '\n' then some (k + 1) else findNlDown r k

/-- Largest index `k ≤` the given bound at which a non-`'\n'` character
exists (backtracking of a greedy `[:\s]*` that must leave `[^\n]+`). -/
def findNonNlDown (r : List Char) : Nat → Option Nat
  | 0 =>
    match r.get? 0 with
    | some c => if c ≠ '\n' then some 0 else none
    | none => none
  | k + 1 =>
    match r.get? (k + 1) with
    | some c => if c ≠ '\n' then some (k + 1) else findNonNlDown r k
    | none => findNonNlDown r k

/-! ### Section Slicer (`headerSliceExtractor.sliceByHeaders`) -/

/-- Known medical document headers, in the source's order (`HEADERS`). -/
def HEADERS : List String :=
  ["Preoperative Diagnoses", "Preoperative Diagnosis",
   "Pre-Operative Diagnoses", "Pre-Operative Diagnosis",
   "Postoperative Diagnoses", "Postoperative Diagnosis",
   "Post-Operative Diagnoses", "Post-Operative Diagnosis",
   "Procedures Performed", "Procedure Performed", "Procedures",
   "Anesthesia", "Indication for Surgery", "Indications for Surgery",
   "Operative Findings", "Postoperative Course", "Post-Operative Course",
   "Functional Limitations", "Discharge Plan", "Discharge Instructions",
   "Prognosis", "Physician Signature", "Attending Physician", "Follow-Up",
   "Medications", "Current Medications", "Allergies", "Known Allergies"]

/-- `normalizeHeaderKey`: lower-case, map every character outside
`[a-z0-9]` to `_`, then map known variants to canonical keys by the
source's ordered `includes` chain. -/
def normalizeHeaderKey (header : String) : String :=
  let normalized :=
    String.mk ((lowerL header.toList).map fun c =>
      if isLowerAZ c || isDigitC c then c else '_')
  if incl normalized "preop" && incl normalized "diagnos" then "preop_diagnoses"
  else if incl normalized "postop" && incl normalized "diagnos" then "postop_diagnoses"
  else if incl normalized "procedure" then "procedures"
  else if incl normalized "anesthesia" then "anesthesia"
  else if incl normalized "indication" then "indication"
  else if incl normalized "operative_finding" then "operative_findings"
  else if incl normalized "postop" && incl normalized "course" then "postop_course"
  else if incl normalized "functional" then "functional_limitations"
  else if incl normalized "discharge" then "discharge_plan"
  else if incl normalized "prognosis" then "prognosis"
  else if incl normalized "physician" || incl normalized "signature" then "physician_signature"
  else if incl normalized "medication" then "medications"
  else if incl normalized "allerg" then "allergies"
  else normalized

/-- Test of the per-header line regex
`^\s*HEADER[:\s]*$` (case-insensitive) together with the source's
redundant second disjunct `line.trim().toLowerCase() === header.toLowerCase()`. -/
def headerLineTest (header : String) (line : String) : Bool :=
  let l := line.toList
  let r := l.dropWhile isJsSpace
  (ciPrefix header r &&
    (r.drop header.toList.length).all fun c => c = ':' || isJsSpace c)
  || decide (lowerL (jsTrim l) = lowerL header.toList)

/-- The slicer's inner loop over `HEADERS`: first header whose line regex
matches, if any. -/
def matchHeaderLine (line : String) : Option String :=
  HEADERS.find? fun h => headerLineTest h line

/-- JS object assignment `sections[k] = v`: replace in place if the key
exists (keeping its position), otherwise append (insertion order). -/
def upsert : List (String × String) → String → String → List (String × String)
  | [], k, v => [(k, v)]
  | (k0, v0) :: t, k, v =>
    if k0 = k then (k0, v) :: t else (k0, v0) :: upsert t k v

/-- JS property read `sections[k]`. -/
def lookupKey (l : List (String × String)) (k : String) : Option String :=
  (l.find? fun p => p.1 = k).map Prod.snd

/-- JS `Array.join('\n')`. -/
def joinNl : List String → String
  | [] => ""
  | [x] => x
  | x :: y :: t => x ++ "\n" ++ joinNl (y :: t)

/-- Mutable state of the `sliceByHeaders` line loop. -/
structure SliceState where
  sections : List (String × String)
  currentHeader : Option String
  currentContent : List String

/-- One iteration of the `sliceByHeaders` loop body. -/
def sliceStep (st : SliceState) (line : String) : SliceState :=
  match matchHeaderLine line with
  | some h =>
    match st.currentHeader with
    | some ch =>
      { sections := upsert st.sections (normalizeHeaderKey ch)
          (trimStr (joinNl st.currentContent)),
        currentHeader := some h, currentContent := [] }
    | none => { st with currentHeader := some h, currentContent := [] }
  | none =>
    match st.currentHeader with
    | some _ => { st with currentContent := st.currentContent ++ [line] }
    | none => st

/-- Final flush after the `sliceByHeaders` loop. -/
def sliceFinish (st : SliceState) : List (String × String) :=
  match st.currentHeader with
  | some ch =>
    upsert st.sections (normalizeHeaderKey ch) (trimStr (joinNl st.currentContent))
  | none => st.sections

/-- `sliceByHeaders`: map from canonical section key to section body.
The JS object is modelled as an insertion-ordered association list with
assignment semantics (`upsert`). -/
def sliceByHeaders (text : String) : List (String × String) :=
  sliceFinish
    (((splitChar '\n' text.toList).map String.mk).foldl sliceStep
      ⟨[], none, []⟩)

/-! ### Numbered/bulleted list extraction (`extractNumberedList`) -/

/-- Regex tail `\s*(.+)` applied to a newline-free remainder `r`:
greedy `\s*` backtracks just enough to leave at least one character for
the greedy capture `(.+)`, which then runs to the end of the line. -/
def tailContent (r : List Char) : Option (List Char) :=
  if r.isEmpty then none
  else
    let kmax := (r.takeWhile isJsSpace).length
    some (r.drop (min kmax (r.length - 1)))

/-- Match of `/^(\d+)[.)]\s*(.+)/` on a trimmed line, returning capture 2. -/
def numberedMatch (trimmed : List Char) : Option (List Char) :=
  let digits := trimmed.takeWhile isDigitC
  if digits.isEmpty then none
  else
    match trimmed.drop digits.length with
    | m :: r => if m = '.' || m = ')' then tailContent r else none
    | [] => none

/-- Match of `/^[●○•\-\*]\s*(.+)/` on a trimmed line, returning capture 1. -/
def bulletMatch (trimmed : List Char) : Option (List Char) :=
  match trimmed with
  | c :: r =>
    if c = '●' || c = '○' || c = '•' || c = '-' || c = '*' then tailContent r
    else none
  | [] => none

/-- One iteration of the `extractNumberedList` loop body; the state is
`(items, currentItem)`. -/
def enlStep (st : List String × Option (List Char)) (line : String) :
    List String × Option (List Char) :=
  let items := st.1
  let cur := st.2
  let trimmed := jsTrim line.toList
  if trimmed.isEmpty then (items, cur)
  else
    match numberedMatch trimmed with
    | some content =>
      (match cur with
       | some ci => items ++ [String.mk (jsTrim ci)]
       | none => items,
       some content)
    | none =>
      match bulletMatch trimmed, cur with
      | some content, none => (items ++ [String.mk (jsTrim content)], none)
      | _, some ci =>
        let isIndented :=
          line.toList.take 3 = [' ', ' ', ' '] || line.toList.take 1 = ['\t']
        let isSub :=
          match trimmed with
          | c :: _ => c = '○' || c = '•' || c = '-'
          | [] => false
        if isSub then (items, some ci)
        else if isIndented ||
            (!(match trimmed with | c :: _ => isUpperAZ c | [] => false) &&
              trimmed.length < 60) then
          (items, some (ci ++ ' ' :: trimmed))
        else (items ++ [String.mk (jsTrim ci)], none)
      | none, none => (items, none)

/-- `extractNumberedList`: numbered/bulleted items of a section body,
with continuation-line merging, sub-bullet dropping and empty-item
filtering, exactly as the source's line loop. -/
def extractNumberedList (block : String) : List String :=
  if (jsTrim block.toList).isEmpty then []
  else
    let lines := (splitChar '\n' block.toList).map String.mk
    let st := lines.foldl enlStep ([], none)
    let items :=
      match st.2 with
      | some ci => st.1 ++ [String.mk (jsTrim ci)]
      | none => st.1
    items.filter fun i => i.toList.length > 0

/-! ### Medication extraction (`extractMedications`) -/

/-- Drug-class keywords of the parenthetical layer (`drugKeywords` regex). -/
def DRUG_KEYWORDS : List String :=
  ["opioid", "analgesia", "analgesic", "pain", "antibiotic", "antiemetic",
   "sedation"]

/-- Known drug names of the `knownDrugs` regex alternation, in source
order (including the source's duplicated `aspirin`). -/
def KNOWN_DRUGS : List String :=
  ["morphine", "hydromorphone", "acetaminophen", "tylenol", "ibuprofen",
   "aspirin", "fentanyl", "oxycodone", "hydrocodone", "codeine", "tramadol",
   "ketorolac", "toradol", "ondansetron", "zofran", "metoclopramide",
   "reglan", "diphenhydramine", "benadryl", "lorazepam", "ativan",
   "midazolam", "propofol", "cefazolin", "ancef", "vancomycin",
   "piperacillin", "metronidazole", "flagyl", "heparin", "enoxaparin",
   "lovenox", "warfarin", "coumadin", "aspirin", "clopidogrel", "plavix",
   "atorvastatin", "lipitor", "metformin", "lisinopril", "amlodipine",
   "omeprazole", "pantoprazole", "gabapentin", "prednisone", "albuterol",
   "furosemide", "lasix"]

/-- The `medicationPatterns` array of layer B: each entry is the
alternation of one `\b(...)\b` pattern, in source order. -/
def MED_PATTERNS : List (List String) :=
  [["morphine"], ["hydromorphone"], ["acetaminophen", "tylenol"],
   ["ibuprofen", "advil", "motrin"], ["fentanyl"],
   ["oxycodone", "oxycontin", "percocet"], ["hydrocodone", "vicodin", "norco"],
   ["tramadol", "ultram"], ["ketorolac", "toradol"],
   ["ondansetron", "zofran"], ["metoclopramide", "reglan"],
   ["cefazolin", "ancef"], ["vancomycin"], ["metronidazole", "flagyl"],
   ["heparin"], ["enoxaparin", "lovenox"], ["gabapentin", "neurontin"],
   ["prednisone"], ["omeprazole", "prilosec"], ["pantoprazole", "protonix"],
   ["furosemide", "lasix"], ["lisinopril"], ["metformin"], ["aspirin"],
   ["warfarin", "coumadin"], ["clopidogrel", "plavix"]]

/-- Allow-list of the `scheduled <drug>` layer C. -/
def SCHEDULED_ALLOW : List String :=
  ["acetaminophen", "ibuprofen", "tylenol", "aspirin"]

/-- The medication vocabulary: every drug name occurring in any of the
three layers' fixed patterns. -/
def MED_VOCAB : List String :=
  KNOWN_DRUGS ++ MED_PATTERNS.flatMap id ++ SCHEDULED_ALLOW

/-- `regex.test(s)` for an alternation of plain words with no anchors:
case-insensitive substring test against any of the words. -/
def testAlts (alts : List String) (l : List Char) : Bool :=
  alts.any fun d => containsSub (lowerL l) d.toList

/-- `drugKeywords.test` of the source. -/
def drugKeywordsTest (l : List Char) : Bool := testAlts DRUG_KEYWORDS l

/-- `knownDrugs.test` of the source. -/
def knownDrugsTest (l : List Char) : Bool := testAlts KNOWN_DRUGS l

/-- `s.match(alternation)[0]`: the text of the leftmost match, trying the
alternatives in pattern order at each position; returns the original-case
slice of the input. -/
def firstMatchAlts (alts : List String) : List Char → Option (List Char)
  | [] => none
  | c :: t =>
    match alts.find? fun a => ciPrefix a (c :: t) with
    | some a => some ((c :: t).take a.toList.length)
    | none => firstMatchAlts alts t

/-- Fuel-driven scanner behind `parenGroups` (fuel `length + 1` is
enough since every step consumes at least one character). -/
def parenGroupsF : Nat → List Char → List (List Char)
  | 0, _ => []
  | _ + 1, [] => []
  | fuel + 1, c :: t =>
    if c = '(' then
      let inner := t.takeWhile (· ≠ ')')
      if inner.isEmpty then parenGroupsF fuel t
      else if inner.length < t.length then
        inner :: parenGroupsF fuel (t.drop (inner.length + 1))
      else parenGroupsF fuel t
    else parenGroupsF fuel t

/-- All matches of `/\(([^)]+)\)/g`: the inner text of each parenthetical
group (at least one non-`)` character), scanning left to right and
resuming after each match, as the JS global regex does. -/
def parenGroups (l : List Char) : List (List Char) := parenGroupsF (l.length + 1) l

/-- `capitalizeFirst` on character lists. -/
def capFirstL : List Char → List Char
  | [] => []
  | c :: t => jsToUpperC c :: t

/-- `capitalizeFirst` of the source: upper-case the first character. -/
def capFirstStr (s : String) : String := String.mk (capFirstL s.toList)

/-- Layer A of `extractMedications`: parenthetical groups that pass the
drug-keyword or known-drug test, split on `/` and `,`, trimmed, length
filtered, and kept (whole part or just the matched drug name) when the
known-drug test passes.  Returns the values passed to `meds.add`, in
order. -/
def layerACands (text : List Char) : List String :=
  (parenGroups text).flatMap fun inner =>
    if drugKeywordsTest inner || knownDrugsTest inner then
      (((splitAnyChar ['/', ','] inner).map jsTrim).filter
          fun p => p.length > 2).flatMap fun part =>
        if part.length < 50 && !containsSub part " the ".toList &&
            knownDrugsTest part then
          [capFirstStr (String.mk part)]
        else if knownDrugsTest part then
          match firstMatchAlts KNOWN_DRUGS part with
          | some m => [capFirstStr (String.mk m)]
          | none => []
        else []
    else []

/-- Word-boundary match of alternative `a` at the start of `l`:
case-insensitive prefix plus a trailing `\b` (end of input or a
non-word character). -/
def wordMatchAt (a : String) (l : List Char) : Bool :=
  ciPrefix a l &&
  (match l.drop a.toList.length with
   | [] => true
   | d :: _ => !isWordC d)

/-- All matches of a global `\b(alt1|alt2|...)\b` regex (case-insensitive):
scan left to right, check the leading word boundary against the previous
character, try the alternatives in order, and resume after each match.
Returns the canonical (lower-case) alternative for each match, which is
exactly `match.toLowerCase()` since every alternative is a plain word.
The fuel argument bounds the number of loop steps; it is called with
`length + 1`, which suffices because every step consumes at least one
character. -/
def scanWordAlts (alts : List String) : Nat → Option Char → List Char → List String
  | 0, _, _ => []
  | _ + 1, _, [] => []
  | fuel + 1, prev, c :: t =>
    let boundary := match prev with | none => true | some p => !isWordC p
    match if boundary then alts.find? fun a => wordMatchAt a (c :: t) else none with
    | some a =>
      a :: scanWordAlts alts fuel (((c :: t).take a.toList.length).getLast?)
        ((c :: t).drop a.toList.length)
    | none => scanWordAlts alts fuel (some c) t

/-- Layer B of `extractMedications`: for each fixed pattern, every
whole-word occurrence, lower-cased and capitalised. -/
def layerBCands (text : List Char) : List String :=
  MED_PATTERNS.flatMap fun alts =>
    (scanWordAlts alts (text.length + 1) none text).map
      fun a => capFirstStr (String.mk (lowerL a.toList))

/-- Match of `/scheduled\s+(\w+)/i` at the start of `l`: the captured
word and the remainder after the match. -/
def schedMatchAt (l : List Char) : Option (List Char × List Char) :=
  if ciPrefix "scheduled" l then
    let r1 := l.drop 9
    let ws := r1.takeWhile isJsSpace
    if ws.isEmpty then none
    else
      let r2 := r1.drop ws.length
      let w := r2.takeWhile isWordC
      if w.isEmpty then none else some (w, r2.drop w.length)
  else none

/-- All matches of the global `/scheduled\s+(\w+)/gi`, returning each
captured word (the match with its `scheduled\s+` prefix stripped, as the
source's `replace` does). -/
def scanScheduled : Nat → List Char → List (List Char)
  | 0, _ => []
  | _ + 1, [] => []
  | fuel + 1, c :: t =>
    match schedMatchAt (c :: t) with
    | some (w, rest) => w :: scanScheduled fuel rest
    | none => scanScheduled fuel t

/-- Layer C of `extractMedications`: `scheduled <word>` matches whose
word is longer than three characters and passes the analgesic allow-list
test. -/
def layerCCands (text : List Char) : List String :=
  (scanScheduled (text.length + 1) text).filterMap fun w =>
    if w.length > 3 && testAlts SCHEDULED_ALLOW w then
      some (capFirstStr (String.mk (lowerL w)))
    else none

/-- `extractMedications`: union of the three layers, deduplicated with
insertion order (the JS `Set`). -/
def extractMedications (text : String) : List String :=
  if text.toList.isEmpty then []
  else
    dedupeKeepFirst
      (layerACands text.toList ++ layerBCands text.toList ++
        layerCCands text.toList)

/-! ### Allergy extraction (`extractAllergies`) -/

/-- Existence of a whole-word, case-insensitive occurrence of `a`
(the test of `/\bNKDA\b/i`), scanning with the previous character as
left boundary context. -/
def hasWordScan (a : String) : Option Char → List Char → Bool
  | _, [] => false
  | prev, c :: t =>
    let boundary := match prev with | none => true | some p => !isWordC p
    (boundary && wordMatchAt a (c :: t)) || hasWordScan a (some c) t

/-- Match of `/no\s+known\s+(drug\s+)?allergies/i` at the start of `l`
(with the optional group tried first, then without, as the regex engine
backtracks). -/
def noKnownAt (l : List Char) : Bool :=
  ciPrefix "no" l &&
  (let r1 := l.drop 2
   let ws1 := r1.takeWhile isJsSpace
   !ws1.isEmpty &&
   (let r2 := r1.drop ws1.length
    ciPrefix "known" r2 &&
    (let r3 := r2.drop 5
     let ws2 := r3.takeWhile isJsSpace
     !ws2.isEmpty &&
     (let r4 := r3.drop ws2.length
      (ciPrefix "drug" r4 &&
        (let r5 := r4.drop 4
         let ws3 := r5.takeWhile isJsSpace
         !ws3.isEmpty && ciPrefix "allergies" (r5.drop ws3.length)))
      || ciPrefix "allergies" r4))))

/-- Existence test of `/no\s+known\s+(drug\s+)?allergies/i`. -/
def hasNoKnown : List Char → Bool
  | [] => false
  | c :: t => noKnownAt (c :: t) || hasNoKnown t

/-- The lookahead `(?=\n\s*[A-Z][a-z]+\s*:)` of the allergies-section
regex: a newline, optional whitespace, one upper-case letter, at least
one lower-case letter, optional whitespace, then a colon. -/
def lookaheadHdr (s : List Char) : Bool :=
  match s with
  | '\n' :: rest =>
    (match rest.dropWhile isJsSpace with
     | c :: r2 =>
       isUpperAZ c &&
       (let low := r2.takeWhile isLowerAZ
        !low.isEmpty &&
        (match (r2.drop low.length).dropWhile isJsSpace with
         | ':' :: _ => true
         | _ => false))
     | [] => false)
  | _ => false

/-- Lazy capture `([\s\S]*?)` up to the first position satisfying the
lookahead or the end of the input (the `$` alternative). -/
def captureLazy : List Char → List Char
  | [] => []
  | c :: t => if lookaheadHdr (c :: t) then [] else c :: captureLazy t

/-- Match of `/allergies[:\s]*\n([\s\S]*?)(?=\n\s*[A-Z][a-z]+\s*:|$)/i`
at the start of `l`: the greedy `[:\s]*` backtracks to leave a literal
newline, then the lazy capture runs to the first lookahead position. -/
def allergySecAt (l : List Char) : Option (List Char) :=
  if ciPrefix "allergies" l then
    let r := l.drop 9
    let kmax := (r.takeWhile fun c => c = ':' || isJsSpace c).length
    match findNlDown r kmax with
    | some k => some (captureLazy (r.drop (k + 1)))
    | none => none
  else none

/-- Leftmost match of the allergies-section regex. -/
def allergySectionCapture : List Char → Option (List Char)
  | [] => none
  | c :: t =>
    match allergySecAt (c :: t) with
    | some cap => some cap
    | none => allergySectionCapture t

/-- Character class `[^.,\n]` of the allergic-to capture. -/
def isAllergyCapC (c : Char) : Bool := !(c = '.' || c = ',' || c = '\n')

/-- Backtracking of the greedy `\s+` before `([^.,\n]+)`: the largest
number `k` of whitespace characters the quantifier can keep — at least
one, at most the given bound — such that the character at index `k` of
`r` exists and lies in the capture class.  The quantifier first tries to
keep the whole run; when the following character cannot start the
capture it gives back trailing whitespace (whitespace other than `'\n'`
is itself in the class, so giving back one character usually
succeeds). -/
def findCapDown (r : List Char) : Nat → Option Nat
  | 0 => none
  | k + 1 =>
    match r.get? (k + 1) with
    | some c => if isAllergyCapC c then some (k + 1) else findCapDown r k
    | none => findCapDown r k

/-- Match of `/allergic\s+to\s+([^.,\n]+)/i` at the start of `l`:
the capture and the remainder after the whole match. -/
def allergicToAt (l : List Char) : Option (List Char × List Char) :=
  if ciPrefix "allergic" l then
    let r1 := l.drop 8
    let ws1 := r1.takeWhile isJsSpace
    if ws1.isEmpty then none
    else
      let r2 := r1.drop ws1.length
      if ciPrefix "to" r2 then
        let r3 := r2.drop 2
        let ws2 := r3.takeWhile isJsSpace
        if ws2.isEmpty then none
        else
          match findCapDown r3 ws2.length with
          | some k =>
            let r4 := r3.drop k
            let cap := r4.takeWhile isAllergyCapC
            some (cap, r4.drop cap.length)
          | none => none
      else none
  else none

/-- All matches of the global `/allergic\s+to\s+([^.,\n]+)/gi`,
returning each capture.  The source maps each full match through
`replace(/allergic\s+to\s+/i, '')` and `trim()`; the replace strips the
prefix up to and including all leading whitespace of the capture, and
the trailing `trim` removes any difference that leaves with trimming
the capture itself, so `trim(capture)` is the result either way. -/
def scanAllergicTo : Nat → List Char → List (List Char)
  | 0, _ => []
  | _ + 1, [] => []
  | fuel + 1, c :: t =>
    match allergicToAt (c :: t) with
    | some (cap, rest) => cap :: scanAllergicTo fuel rest
    | none => scanAllergicTo fuel t

/-- Fallback of `extractAllergies`: inline `allergic to X` phrases,
trimmed. -/
def allergicFallback (l : List Char) : List String :=
  let ms := scanAllergicTo (l.length + 1) l
  if ms.isEmpty then [] else ms.map fun m => trimStr (String.mk m)

/-- `extractAllergies`: the NKDA / no-known-allergies sentinel check
first, then the explicit allergies section (via numbered-list extraction),
then inline `allergic to X` phrases. -/
def extractAllergies (text : String) : List String :=
  if text.toList.isEmpty then []
  else
    let l := text.toList
    if hasWordScan "nkda" none l || hasNoKnown l then ["NKDA"]
    else
      match allergySectionCapture l with
      | some cap =>
        let items := extractNumberedList (String.mk cap)
        if !items.isEmpty then items else allergicFallback l
      | none => allergicFallback l

/-! ### Surgery metadata extraction (`extractSurgeryMetadata`) -/

/-- Regex tail `[:\s]*([^\n]+)`: the greedy class run backtracks until at
least one non-newline character remains, and the capture then runs to the
end of the line. -/
def colonWsCapture (r : List Char) : Option (List Char) :=
  let kmax := (r.takeWhile fun c => c = ':' || isJsSpace c).length
  match findNonNlDown r kmax with
  | some k => some ((r.drop k).takeWhile (· ≠ '\n'))
  | none => none

/-- Leftmost match of a position-wise matcher over the whole input. -/
def scanFirst (f : List Char → Option (List Char)) : List Char → Option (List Char)
  | [] => f []
  | c :: t =>
    match f (c :: t) with
    | some res => some res
    | none => scanFirst f t

/-- Match of `/date\s+of\s+surgery[:\s]*([^\n]+)/i` at the start of `l`. -/
def dateOfSurgAt (l : List Char) : Option (List Char) :=
  if ciPrefix "date" l then
    let r1 := l.drop 4
    let ws1 := r1.takeWhile isJsSpace
    if ws1.isEmpty then none
    else
      let r2 := r1.drop ws1.length
      if ciPrefix "of" r2 then
        let r3 := r2.drop 2
        let ws2 := r3.takeWhile isJsSpace
        if ws2.isEmpty then none
        else
          let r4 := r3.drop ws2.length
          if ciPrefix "surgery" r4 then colonWsCapture (r4.drop 7) else none
      else none
  else none

/-- Match of `/(?:attending|reporting)\s+(?:surgeon|physician)[:\s]*([^\n]+)/i`
at the start of `l`. -/
def attRepAt (l : List Char) : Option (List Char) :=
  let alt1 :=
    if ciPrefix "attending" l then some 9
    else if ciPrefix "reporting" l then some 9
    else none
  match alt1 with
  | some n =>
    let r1 := l.drop n
    let ws := r1.takeWhile isJsSpace
    if ws.isEmpty then none
    else
      let r2 := r1.drop ws.length
      let alt2 :=
        if ciPrefix "surgeon" r2 then some 7
        else if ciPrefix "physician" r2 then some 9
        else none
      match alt2 with
      | some m => colonWsCapture (r2.drop m)
      | none => none
  | none => none

/-- Match of `/surgeon[:\s]*([^\n]+)/i` at the start of `l`. -/
def surgeonAt (l : List Char) : Option (List Char) :=
  if ciPrefix "surgeon" l then colonWsCapture (l.drop 7) else none

/-- Match of `/facility[:\s]*([^\n]+)/i` at the start of `l`. -/
def facilityAt (l : List Char) : Option (List Char) :=
  if ciPrefix "facility" l then colonWsCapture (l.drop 8) else none

/-- Match of `/(?:hospital|medical center|clinic)[:\s]*([^\n]+)/i` at the
start of `l` (alternatives in pattern order; their first letters differ
except `medical center`/`clinic`, which differ immediately, so the
ordered `if` chain is the alternation). -/
def hospAt (l : List Char) : Option (List Char) :=
  if ciPrefix "hospital" l then colonWsCapture (l.drop 8)
  else if ciPrefix "medical center" l then colonWsCapture (l.drop 14)
  else if ciPrefix "clinic" l then colonWsCapture (l.drop 6)
  else none

/-- Match of `/patient\s+name[:\s]*([^\n]+)/i` at the start of `l`. -/
def patientNameAt (l : List Char) : Option (List Char) :=
  if ciPrefix "patient" l then
    let r1 := l.drop 7
    let ws := r1.takeWhile isJsSpace
    if ws.isEmpty then none
    else
      let r2 := r1.drop ws.length
      if ciPrefix "name" r2 then colonWsCapture (r2.drop 4) else none
  else none

/-- Capture class `[A-Z0-9\-]` with the `i` flag: letters of either case,
digits, and hyphen. -/
def isMrnCapC (c : Char) : Bool :=
  isUpperAZ c || isLowerAZ c || isDigitC c || c = '-'

/-- Regex tail `[:\s()]*([A-Z0-9\-]+)`: the class run and the capture
class are disjoint, so no backtracking occurs. -/
def mrnTail (r : List Char) : Option (List Char) :=
  let r2 := r.dropWhile fun c => c = ':' || isJsSpace c || c = '(' || c = ')'
  let cap := r2.takeWhile isMrnCapC
  if cap.isEmpty then none else some cap

/-- Match of `/(?:medical\s+record\s+number|mrn)[:\s()]*([A-Z0-9\-]+)/i`
at the start of `l`.  When `medical` matches as a prefix, the `mrn`
alternative cannot match at the same position (the second characters
differ), so the ordered `if` chain is the alternation. -/
def mrnAt (l : List Char) : Option (List Char) :=
  if ciPrefix "medical" l then
    let r1 := l.drop 7
    let ws := r1.takeWhile isJsSpace
    if ws.isEmpty then none
    else
      let r2 := r1.drop ws.length
      if ciPrefix "record" r2 then
        let r3 := r2.drop 6
        let ws2 := r3.takeWhile isJsSpace
        if ws2.isEmpty then none
        else
          let r4 := r3.drop ws2.length
          if ciPrefix "number" r4 then mrnTail (r4.drop 6) else none
      else none
  else if ciPrefix "mrn" l then mrnTail (l.drop 3)
  else none

/-- Surgery metadata record of `extractSurgeryMetadata`. -/
structure SurgeryMetadata where
  date : Option String
  surgeon : Option String
  facility : Option String
  patient_name : Option String
  mrn : Option String
deriving DecidableEq, Repr

/-- `.replace(/^Dr\.?\s*/i, 'Dr. ')` of the surgeon normalisation. -/
def drNormalize (s : String) : String :=
  let l := s.toList
  if ciPrefix "dr" l then
    let r1 := l.drop 2
    let r2 := match r1 with | '.' :: t => t | _ => r1
    String.mk ("Dr. ".toList ++ r2.dropWhile isJsSpace)
  else s

/-- `extractSurgeryMetadata`: the five independent regex probes. -/
def extractSurgeryMetadata (text : String) : SurgeryMetadata :=
  let l := text.toList
  { date := (scanFirst dateOfSurgAt l).map fun c => trimStr (String.mk c)
    surgeon :=
      (match scanFirst attRepAt l with
       | some c => some c
       | none => scanFirst surgeonAt l).map
        fun c => drNormalize (trimStr (String.mk c))
    facility :=
      (match scanFirst facilityAt l with
       | some c => some c
       | none => scanFirst hospAt l).map fun c => trimStr (String.mk c)
    patient_name :=
      (scanFirst patientNameAt l).map fun c => trimStr (String.mk c)
    mrn := (scanFirst mrnAt l).map fun c => trimStr (String.mk c) }

/-! ### Data model of the extraction (`Extraction`, pass-2 shape) -/

/-- A medication entry: the source tolerates both plain strings and
objects with `name`/`dose` (the only medication sub-fields its logic
reads). -/
inductive MedEntry
  | strM (s : String)
  | objM (name dose : Option String)
deriving DecidableEq, Repr

/-- An allergy entry: plain string or object with `substance`/`reaction`
(the only allergy sub-fields the source's logic reads). -/
inductive AllergyEntry
  | strA (s : String)
  | objA (substance reaction : Option String)
deriving DecidableEq, Repr

/-- `typeof med === 'string' ? med : med.name || ''`. -/
def medNameOf : MedEntry → String
  | .strM s => s
  | .objM name _ => name.getD ""

/-- `typeof a === 'string' ? a : a.substance || ''`. -/
def allergySubOf : AllergyEntry → String
  | .strA s => s
  | .objA substance _ => substance.getD ""

/-- Document metadata (`doc` object of the pass-2 schema). -/
structure DocMeta where
  doc_type : Option String := none
  doc_date : Option String := none
  facility : Option String := none
  provider : Option String := none
  patient_name : Option String := none
  mrn : Option String := none
deriving DecidableEq, Repr

/-- Surgery block of the pass-2 schema. -/
structure SurgeryInfo where
  has_surgery : Bool := false
  date : Option String := none
  surgeon : Option String := none
  procedures : List String := []
deriving DecidableEq, Repr

/-- Diagnosis lists of the pass-2 schema. -/
structure Diagnoses where
  preop : List String := []
  postop : List String := []
deriving DecidableEq, Repr

/-- Evidence object built by the header-slice extractor (four fields). -/
structure Evidence where
  surgery_date : Option String := none
  procedures_section : Option String := none
  preop_dx_section : Option String := none
  postop_dx_section : Option String := none
deriving DecidableEq, Repr

/-- The structured extraction (pass-2 shape).  The four loose date
fields (`date_of_admission`/`admission_date`/`date_of_discharge`/
`discharge_date`) are read by `computeFieldConfidence` at the top level
of the object; the header-slice extractor never sets them. -/
structure Extraction where
  doc : DocMeta := {}
  surgery : SurgeryInfo := {}
  diagnoses : Diagnoses := {}
  medications : List MedEntry := []
  allergies : List AllergyEntry := []
  functional_limitations : List String := []
  summary : Option String := none
  evidence : Evidence := {}
  date_of_admission : Option String := none
  admission_date : Option String := none
  date_of_discharge : Option String := none
  discharge_date : Option String := none
deriving DecidableEq, Repr

/-- The six invariant flags computed by `extractWithHeaderSlice`. -/
structure Invariants where
  preop_diagnoses_header_exists : Bool
  postop_diagnoses_header_exists : Bool
  procedures_header_exists : Bool
  preop_diagnoses_extracted : Bool
  postop_diagnoses_extracted : Bool
  procedures_extracted : Bool
deriving DecidableEq, Repr

/-- A confidence value: score plus breakdown entries in insertion order. -/
structure Confidence where
  score : ℚ
  breakdown : List (String × ℚ)
deriving DecidableEq, Repr

/-- `Math.round(x * 100) / 100`. -/
def round2 (q : ℚ) : ℚ := (round (q * 100) : ℚ) / 100

/-- Violation count of the header-slice confidence scorer.  The
`Object.entries` filter keeps the keys containing `_exists` — the three
`_header_exists` flags — whose value is truthy and whose
`invariants[k.replace('_exists', '_extracted')]` lookup is falsy.  That
replace turns `preop_diagnoses_header_exists` into
`preop_diagnoses_header_extracted` (and likewise for the other two), a
key the invariants object never has, so the lookup is always `undefined`
and its negation always true: the count is simply the number of present
headers, whether or not the matching list was extracted. -/
def hsViolationCount (inv : Invariants) : ℚ :=
  (if inv.preop_diagnoses_header_exists then 1 else 0) +
  (if inv.postop_diagnoses_header_exists then 1 else 0) +
  (if inv.procedures_header_exists then 1 else 0)

/-- `computeConfidence` of the header-slice extractor: fixed presence
weights, a 0.15 penalty per present header (see `hsViolationCount` for
why extraction success never cancels the penalty) floored at 0, and
rounding to two decimals.  The metadata bonus reads
`extraction.doc.surgeon`, a property that does not exist on the doc
object (the surgeon is stored under `surgery.surgeon` and
`doc.provider`), so only `doc.facility` can make it fire. -/
def computeConfidenceHS (e : Extraction) (inv : Invariants) : Confidence :=
  let s1 : ℚ := if optTruthy e.surgery.date then 20/100 else 0
  let b1 := if optTruthy e.surgery.date then [("surgery_date", (20 : ℚ)/100)] else []
  let s2 : ℚ := if !e.surgery.procedures.isEmpty then 25/100 else 0
  let b2 := if !e.surgery.procedures.isEmpty then [("procedures", (25 : ℚ)/100)] else []
  let s3 : ℚ := if !e.diagnoses.preop.isEmpty then 15/100 else 0
  let b3 := if !e.diagnoses.preop.isEmpty then [("preop_diagnoses", (15 : ℚ)/100)] else []
  let s4 : ℚ := if !e.diagnoses.postop.isEmpty then 15/100 else 0
  let b4 := if !e.diagnoses.postop.isEmpty then [("postop_diagnoses", (15 : ℚ)/100)] else []
  let s5 : ℚ := if !e.medications.isEmpty then 10/100 else 0
  let b5 := if !e.medications.isEmpty then [("medications", (10 : ℚ)/100)] else []
  let s6 : ℚ := if !e.allergies.isEmpty then 5/100 else 0
  let b6 := if !e.allergies.isEmpty then [("allergies", (5 : ℚ)/100)] else []
  let s7 : ℚ := if optTruthy e.doc.facility then 10/100 else 0
  let b7 := if optTruthy e.doc.facility then [("metadata", (10 : ℚ)/100)] else []
  let score := s1 + s2 + s3 + s4 + s5 + s6 + s7
  let vc := hsViolationCount inv
  let score2 := if 0 < vc then max 0 (score - vc * (15/100)) else score
  let b8 := if 0 < vc then [("invariant_penalty", -(vc * (15/100)))] else []
  { score := round2 score2
    breakdown := b1 ++ b2 ++ b3 ++ b4 ++ b5 ++ b6 ++ b7 ++ b8 }

/-- Fuel-driven worker behind `collapseWs` (fuel `length + 1` is enough
since every step consumes at least one character). -/
def collapseWsF : Nat → List Char → List Char
  | 0, _ => []
  | _ + 1, [] => []
  | fuel + 1, c :: t =>
    if isJsSpace c then ' ' :: collapseWsF fuel (t.dropWhile isJsSpace)
    else c :: collapseWsF fuel t

/-- `replace(/\s+/g, ' ')`: collapse each maximal whitespace run into a
single space. -/
def collapseWs (l : List Char) : List Char := collapseWsF (l.length + 1) l

/-- `buildSummary`: first 600 characters, whitespace collapsed, trimmed,
with an ellipsis when the preview is not shorter than 600. -/
def buildSummary (text : String) : String :=
  let preview := trimStr (String.mk (collapseWs (text.toList.take 600)))
  if preview.toList.length < 600 then preview else preview ++ "..."

/-- Result record of `extractWithHeaderSlice`. -/
structure SliceResult where
  extraction : Extraction
  confidence : Confidence
  invariants : Invariants
  violations : List String
  sections_found : List String
  method : String
deriving DecidableEq, Repr

/-- Section body for a canonical key, extracted to a list when the body
is truthy (`sections.key ? extractNumberedList(sections.key) : []`). -/
def hsSectionList (text : String) (key : String) : List String :=
  let sec := lookupKey (sliceByHeaders text) key
  if optTruthy sec then extractNumberedList (sec.getD "") else []

/-- Step 2 of `extractWithHeaderSlice`: pre-op diagnoses. -/
def hsPreopDx (text : String) : List String := hsSectionList text "preop_diagnoses"

/-- Step 2 of `extractWithHeaderSlice`: post-op diagnoses. -/
def hsPostopDx (text : String) : List String := hsSectionList text "postop_diagnoses"

/-- Step 2 of `extractWithHeaderSlice`: procedures. -/
def hsProcedures (text : String) : List String := hsSectionList text "procedures"

/-- Step 3 of `extractWithHeaderSlice`: medications from the post-op
course section first (`sections.postop_course || ''`), full-text scan as
fallback when that yields nothing. -/
def hsMedications (text : String) : List String :=
  let meds1 := extractMedications ((lookupKey (sliceByHeaders text) "postop_course").getD "")
  if meds1.isEmpty then extractMedications text else meds1

/-- Step 7 of `extractWithHeaderSlice`: the six invariant flags. -/
def hsInvariants (text : String) : Invariants :=
  { preop_diagnoses_header_exists :=
      (lookupKey (sliceByHeaders text) "preop_diagnoses").isSome
    postop_diagnoses_header_exists :=
      (lookupKey (sliceByHeaders text) "postop_diagnoses").isSome
    procedures_header_exists :=
      (lookupKey (sliceByHeaders text) "procedures").isSome
    preop_diagnoses_extracted := !(hsPreopDx text).isEmpty
    postop_diagnoses_extracted := !(hsPostopDx text).isEmpty
    procedures_extracted := !(hsProcedures text).isEmpty }

/-- The violation messages pushed by `extractWithHeaderSlice`, in source
order. -/
def hsViolations (text : String) : List String :=
  (if (hsInvariants text).preop_diagnoses_header_exists &&
      !(hsInvariants text).preop_diagnoses_extracted then
    ["Preoperative Diagnoses section found but extraction returned empty"]
   else []) ++
  (if (hsInvariants text).postop_diagnoses_header_exists &&
      !(hsInvariants text).postop_diagnoses_extracted then
    ["Postoperative Diagnoses section found but extraction returned empty"]
   else []) ++
  (if (hsInvariants text).procedures_header_exists &&
      !(hsInvariants text).procedures_extracted then
    ["Procedures section found but extraction returned empty"]
   else [])

/-- The extraction record assembled by `extractWithHeaderSlice`. -/
def hsExtraction (text : String) : Extraction :=
  let metadata := extractSurgeryMetadata text
  let procedures := hsProcedures text
  let preSec := lookupKey (sliceByHeaders text) "preop_diagnoses"
  let postSec := lookupKey (sliceByHeaders text) "postop_diagnoses"
  let procSec := lookupKey (sliceByHeaders text) "procedures"
  { doc :=
      { doc_type := some "surgical_report"
        doc_date := metadata.date
        facility := metadata.facility
        provider := metadata.surgeon
        patient_name := metadata.patient_name
        mrn := metadata.mrn }
    surgery :=
      { has_surgery := !procedures.isEmpty
        date := metadata.date
        surgeon := metadata.surgeon
        procedures := procedures }
    diagnoses := { preop := hsPreopDx text, postop := hsPostopDx text }
    medications := (hsMedications text).map .strM
    allergies := (extractAllergies text).map .strA
    functional_limitations := hsSectionList text "functional_limitations"
    summary := some (buildSummary text)
    evidence :=
      { surgery_date :=
          if optTruthy metadata.date then
            some ("Date of Surgery: " ++ metadata.date.getD "")
          else none
        procedures_section :=
          if optTruthy procSec then
            some (String.mk ((procSec.getD "").toList.take 200))
          else none
        preop_dx_section :=
          if optTruthy preSec then
            some (String.mk ((preSec.getD "").toList.take 200))
          else none
        postop_dx_section :=
          if optTruthy postSec then
            some (String.mk ((postSec.getD "").toList.take 200))
          else none } }

/-- `extractWithHeaderSlice`: slice into sections, extract each list,
medications (post-op course first, then full text), allergies, metadata,
invariant flags, violations, and the header-slice confidence. -/
def extractWithHeaderSlice (text : String) : SliceResult :=
  { extraction := hsExtraction text
    confidence := computeConfidenceHS (hsExtraction text) (hsInvariants text)
    invariants := hsInvariants text
    violations := hsViolations text
    sections_found := (sliceByHeaders text).map Prod.fst
    method := "header-slice-regex" }

/-! ### Pipeline confidence scorer (`safeExtractionPipeline.computeConfidence`) -/

/-- `computeConfidence` of `safeExtractionPipeline.js`: fixed presence
weights (surgery date 0.25, procedures 0.20, any diagnosis 0.20,
allergies 0.10, medications 0.10, doc metadata 0.10, evidence 0.05),
capped at 1.0.  No invariant penalty and no rounding occur here. -/
def computeConfidencePipe (p : Extraction) : Confidence :=
  let s1 : ℚ := if optTruthy p.surgery.date then 25/100 else 0
  let b1 := if optTruthy p.surgery.date then [("surgery_date", (25 : ℚ)/100)] else []
  let s2 : ℚ := if !p.surgery.procedures.isEmpty then 20/100 else 0
  let b2 := if !p.surgery.procedures.isEmpty then [("procedures", (20 : ℚ)/100)] else []
  let dxCount := p.diagnoses.preop.length + p.diagnoses.postop.length
  let s3 : ℚ := if 0 < dxCount then 20/100 else 0
  let b3 := if 0 < dxCount then [("diagnoses", (20 : ℚ)/100)] else []
  let s4 : ℚ := if !p.allergies.isEmpty then 10/100 else 0
  let b4 := if !p.allergies.isEmpty then [("allergies", (10 : ℚ)/100)] else []
  let s5 : ℚ := if !p.medications.isEmpty then 10/100 else 0
  let b5 := if !p.medications.isEmpty then [("medications", (10 : ℚ)/100)] else []
  let metaP := optTruthy p.doc.facility || optTruthy p.doc.provider || optTruthy p.doc.mrn
  let s6 : ℚ := if metaP then 10/100 else 0
  let b6 := if metaP then [("metadata", (10 : ℚ)/100)] else []
  let hasEvidence :=
    optTruthy p.evidence.surgery_date || optTruthy p.evidence.procedures_section ||
    optTruthy p.evidence.preop_dx_section || optTruthy p.evidence.postop_dx_section
  let s7 : ℚ := if hasEvidence then 5/100 else 0
  let b7 := if hasEvidence then [("evidence", (5 : ℚ)/100)] else []
  { score := min 1 (s1 + s2 + s3 + s4 + s5 + s6 + s7)
    breakdown := b1 ++ b2 ++ b3 ++ b4 ++ b5 ++ b6 ++ b7 }

/-! ### Field-level confidence (`computeFieldConfidence`) -/

/-- Case-insensitive NKDA-sentinel test used throughout the source
(`includes('nkda') || includes('no known')` on the lower-cased value). -/
def nkdaLikeStr (s : String) : Bool :=
  incl (lowerStr s) "nkda" || incl (lowerStr s) "no known"

/-- Per-field confidence scores assigned by `computeFieldConfidence`. -/
structure FieldConfidence where
  patient_name : ℚ
  mrn : ℚ
  admission_date : ℚ
  discharge_date : ℚ
  surgery_date : ℚ
  procedures : ℚ
  preop_dx : ℚ
  postop_dx : ℚ
  medications : ℚ
  allergies : ℚ
deriving DecidableEq, Repr

/-- Result of `computeFieldConfidence`. -/
structure FieldConfResult where
  field_confidence : FieldConfidence
  missing_fields : List String
deriving DecidableEq, Repr

/-- Medications whose entry is an object with a truthy dose other than
`'unknown'` (the `medsWithDose` filter). -/
def medsWithDoseL (p : Extraction) : List MedEntry :=
  p.medications.filter fun m =>
    match m with
    | .objM _ dose => optTruthy dose && !(dose = some "unknown")
    | .strM _ => false

/-- Allergy entries that are objects with a truthy reaction. -/
def allergiesWithReactionL (p : Extraction) : List AllergyEntry :=
  p.allergies.filter fun a =>
    match a with
    | .objA _ r => optTruthy r
    | .strA _ => false

/-- NKDA-sentinel presence among the extraction's allergies. -/
def extractionIsNKDA (p : Extraction) : Bool :=
  p.allergies.any fun a => nkdaLikeStr (allergySubOf a)

/-- Missing-fields push of the patient-name block: unconditional when
the field is absent (no textual-cue check in the source). -/
def mfPatient (p : Extraction) : List String :=
  if optTruthy p.doc.patient_name then [] else ["patient_name"]

/-- Missing-fields push of the MRN block: unconditional when the field
is absent (no textual-cue check in the source). -/
def mfMrn (p : Extraction) : List String :=
  if optTruthy p.doc.mrn then [] else ["mrn"]

/-- Missing-fields push of the admission-date block, cue-gated. -/
def mfAdmission (p : Extraction) (lower : String) : List String :=
  if optTruthy p.date_of_admission || optTruthy p.admission_date then []
  else if incl lower "admission" || incl lower "admitted" then ["admission_date"]
  else []

/-- Missing-fields push of the discharge-date block, cue-gated. -/
def mfDischarge (p : Extraction) (lower : String) : List String :=
  if optTruthy p.date_of_discharge || optTruthy p.discharge_date then []
  else if incl lower "discharge" then ["discharge_date"]
  else []

/-- Missing-fields push of the surgery-date block, cue-gated. -/
def mfSurgDate (p : Extraction) (lower : String) : List String :=
  if optTruthy p.surgery.date then []
  else if incl lower "date of surgery" || incl lower "surgery date" then ["surgery_date"]
  else []

/-- Missing-fields push of the procedures block, cue-gated. -/
def mfProcedures (p : Extraction) (lower : String) : List String :=
  if !p.surgery.procedures.isEmpty then []
  else if incl lower "procedure" || incl lower "operation" then ["procedures"]
  else []

/-- Missing-fields push of the pre-op diagnoses block, cue-gated. -/
def mfPreop (p : Extraction) (lower : String) : List String :=
  if !p.diagnoses.preop.isEmpty then []
  else if incl lower "preoperative diagnosis" ||
      incl lower "pre-operative diagnosis" then ["preop_dx"]
  else []

/-- Missing-fields push of the post-op diagnoses block, cue-gated. -/
def mfPostop (p : Extraction) (lower : String) : List String :=
  if !p.diagnoses.postop.isEmpty then []
  else if incl lower "postoperative diagnosis" ||
      incl lower "post-operative diagnosis" then ["postop_dx"]
  else []

/-- Missing-fields push of the medications block: sub-detail entries
when medications are present, cue-gated `medications` otherwise. -/
def mfMeds (p : Extraction) (lower : String) : List String :=
  if !p.medications.isEmpty then
    if (medsWithDoseL p).length = p.medications.length then []
    else if 0 < (medsWithDoseL p).length then ["medications_dose"]
    else ["medications_dose", "medications_frequency"]
  else if incl lower "medication" || incl lower "analgesia" ||
      incl lower "discharge med" then ["medications"]
  else []

/-- Missing-fields push of the allergies block: reaction sub-detail when
allergies are present (and not the NKDA sentinel), cue-gated `allergies`
otherwise. -/
def mfAllergies (p : Extraction) (lower : String) : List String :=
  if !p.allergies.isEmpty then
    if extractionIsNKDA p then []
    else if (allergiesWithReactionL p).length = p.allergies.length then []
    else ["allergies_reaction"]
  else if incl lower "allerg" then ["allergies"]
  else []

/-- The raw missing-fields list of `computeFieldConfidence`, in the
source's push order. -/
def missingFieldsRaw (p : Extraction) (lower : String) : List String :=
  mfPatient p ++ mfMrn p ++ mfAdmission p lower ++ mfDischarge p lower ++
    mfSurgDate p lower ++ mfProcedures p lower ++ mfPreop p lower ++
    mfPostop p lower ++ mfMeds p lower ++ mfAllergies p lower

/-- `computeFieldConfidence`: per-field scores and the missing-fields
list, in the source's push order, deduplicated at the end
(`[...new Set(missingFields)]`).  The procedures branch reads
`pass2Result.evidence?.surgery?.procedures`; the evidence object built by
the header-slice extractor has no `surgery` sub-object, so that check is
always undefined/falsy and the populated-procedures score is 0.85. -/
def computeFieldConfidence (p : Extraction) (rawText : String) : FieldConfResult :=
  let lower := lowerStr rawText
  { field_confidence :=
      { patient_name := if optTruthy p.doc.patient_name then 95/100 else 0
        mrn := if optTruthy p.doc.mrn then 90/100 else 0
        admission_date :=
          if optTruthy p.date_of_admission || optTruthy p.admission_date then 92/100
          else 0
        discharge_date :=
          if optTruthy p.date_of_discharge || optTruthy p.discharge_date then 92/100
          else 0
        surgery_date := if optTruthy p.surgery.date then 93/100 else 0
        procedures := if !p.surgery.procedures.isEmpty then 85/100 else 0
        preop_dx := if !p.diagnoses.preop.isEmpty then 90/100 else 0
        postop_dx := if !p.diagnoses.postop.isEmpty then 90/100 else 0
        medications :=
          if !p.medications.isEmpty then
            if (medsWithDoseL p).length = p.medications.length then 85/100
            else if 0 < (medsWithDoseL p).length then 70/100
            else 60/100
          else 0
        allergies :=
          if !p.allergies.isEmpty then
            if extractionIsNKDA p then 95/100
            else if (allergiesWithReactionL p).length = p.allergies.length then 85/100
            else 70/100
          else 0 }
    missing_fields := dedupeKeepFirst (missingFieldsRaw p lower) }

/-! ### Invariant checker (`checkInvariants`) -/

/-- Pass-1 anchors read by `checkInvariants`. -/
structure Pass1Anchors where
  date_of_surgery : Option String := none
  has_preop_dx_section : Bool := false
  has_postop_dx_section : Bool := false
  has_procedures_section : Bool := false
deriving DecidableEq, Repr

/-- Pass-1 result wrapper. -/
structure Pass1 where
  anchors : Pass1Anchors := {}
deriving DecidableEq, Repr

/-- One invariant issue `{code, message, severity}`. -/
structure Issue where
  code : String
  message : String
  severity : String
deriving DecidableEq, Repr

/-- Validation report returned by `checkInvariants`. -/
structure InvariantReport where
  passed : Bool
  issues : List Issue
  hasCritical : Bool
  hasWarnings : Bool
deriving DecidableEq, Repr

/-- Side-effect / non-drug phrases of the medication anomaly filter
(each is a case-insensitive substring test, as the `badPatterns`
regexes have no metacharacters). -/
def BAD_MED_PATTERNS : List String :=
  ["sedation", "reaction time", "side effect", "emoji", "coordination",
   "drowsiness", "nausea", "vomiting", "constipation"]

/-- Removal test of the medication anomaly filter: a bad pattern matches
or the name exceeds six space-separated words. -/
def removeMed (m : MedEntry) : Bool :=
  let name := medNameOf m
  BAD_MED_PATTERNS.any (fun p => incl (lowerStr name) p) ||
    (splitChar ' ' name.toList).length > 6

/-- Invariant 1 of `checkInvariants`: date-of-surgery anchor with no
surgery extracted. -/
def ciIssue1 (p1 : Pass1) (p2 : Extraction) (rawText : String) : List Issue :=
  if (optTruthy p1.anchors.date_of_surgery ||
      incl (lowerStr rawText) "date of surgery") &&
      (!p2.surgery.has_surgery && p2.surgery.procedures.isEmpty) then
    [{ code := "MISSING_SURGERY"
       message := "Document contains \"Date of Surgery\" but no surgery/procedures were extracted"
       severity := "critical" }]
  else []

/-- Invariant 2 of `checkInvariants`: procedures section with no
procedures extracted. -/
def ciIssue2 (p1 : Pass1) (p2 : Extraction) : List Issue :=
  if p1.anchors.has_procedures_section && p2.surgery.procedures.isEmpty then
    [{ code := "MISSING_PROCEDURES"
       message := "Document has Procedures section but no procedures were extracted"
       severity := "critical" }]
  else []

/-- Invariant 3 of `checkInvariants`: pre-op diagnosis section with no
pre-op diagnoses extracted. -/
def ciIssue3 (p1 : Pass1) (p2 : Extraction) : List Issue :=
  if p1.anchors.has_preop_dx_section && p2.diagnoses.preop.isEmpty then
    [{ code := "MISSING_PREOP_DX"
       message := "Document has Preoperative Diagnosis section but none were extracted"
       severity := "warning" }]
  else []

/-- Invariant 4 of `checkInvariants`: post-op diagnosis section with no
post-op diagnoses extracted. -/
def ciIssue4 (p1 : Pass1) (p2 : Extraction) : List Issue :=
  if p1.anchors.has_postop_dx_section && p2.diagnoses.postop.isEmpty then
    [{ code := "MISSING_POSTOP_DX"
       message := "Document has Postoperative Diagnosis section but none were extracted"
       severity := "warning" }]
  else []

/-- The info issues pushed by the medication anomaly filter, one per
removed entry, in list order. -/
def ciMedIssues (p2 : Extraction) : List Issue :=
  (p2.medications.filter removeMed).map fun m =>
    { code := "INVALID_MEDICATION"
      message := "Filtered invalid medication entry: \"" ++ medNameOf m ++ "\""
      severity := "info" }

/-- The full issue list of `checkInvariants`, in push order. -/
def ciIssues (p1 : Pass1) (p2 : Extraction) (rawText : String) : List Issue :=
  ciIssue1 p1 p2 rawText ++ ciIssue2 p1 p2 ++ ciIssue3 p1 p2 ++
    ciIssue4 p1 p2 ++ ciMedIssues p2

/-- `checkInvariants`: the five structural invariants plus the
medication anomaly filter.  The source mutates `pass2Result` (the NKDA
auto-fix and the medication filter); the mutation is modelled by
returning the updated extraction next to the report. -/
def checkInvariants (p1 : Pass1) (p2 : Extraction) (rawText : String) :
    InvariantReport × Extraction :=
  let lowerText := lowerStr rawText
  let allergiesFixed :=
    if incl lowerText "nkda" || incl lowerText "no known drug allergies" ||
        incl lowerText "no known allergies" then
      let hasNKDA := p2.allergies.any fun a => nkdaLikeStr (allergySubOf a)
      if !hasNKDA && p2.allergies.isEmpty then [.strA "NKDA"] else p2.allergies
    else p2.allergies
  let keptMeds := p2.medications.filter fun m => !removeMed m
  let issues := ciIssues p1 p2 rawText
  let hasCritical := issues.any fun i => i.severity == "critical"
  ({ passed := !hasCritical
     issues := issues
     hasCritical := hasCritical
     hasWarnings := issues.any fun i => i.severity == "warning" },
   { p2 with allergies := allergiesFixed, medications := keptMeds })

/-! ### Chart-format conversion (`convertToChartFormat`) -/

/-- A surgery entry in chart format. -/
structure ChartSurgery where
  date : Option String := none
  procedures : List String := []
  surgeon : Option String := none
  source_document_id : Option String := none
deriving DecidableEq, Repr

/-- A medication entry in chart format. -/
structure ChartMed where
  name : Option String := none
  dose : Option String := none
  source_document_id : Option String := none
deriving DecidableEq, Repr

/-- The chart-format object built by `convertToChartFormat` and consumed
by `detectConflicts` as `extractedData`.  The source's object literal has
no `mrn` key at all; an absent property reads as `undefined`, modelled by
`mrn = none`. -/
structure ChartData where
  surgeries : List ChartSurgery := []
  diagnoses : List String := []
  medications : List ChartMed := []
  allergies : List AllergyEntry := []
  summary : Option String := none
  mrn : Option String := none
deriving DecidableEq, Repr

/-- `convertToChartFormat` of `safeExtractionPipeline.js`.  Diagnoses in
the model are already strings, so the string-vs-object mapping is the
identity; converted allergy objects keep their substance and reaction
(the added `source_document_id` is not read by any downstream logic
modelled here). -/
def convertToChartFormat (p : Extraction) (documentId : Nat) : ChartData :=
  let sdi := some (toString documentId)
  { surgeries :=
      if p.surgery.has_surgery || !p.surgery.procedures.isEmpty then
        [{ date := jsOrS p.surgery.date none
           procedures := p.surgery.procedures
           surgeon := jsOrS p.surgery.surgeon (jsOrS p.doc.provider none)
           source_document_id := sdi }]
      else []
    diagnoses := p.diagnoses.preop ++ p.diagnoses.postop
    medications := p.medications.map fun m =>
      match m with
      | .strM s => { name := some s, source_document_id := sdi }
      | .objM name dose => { name := name, dose := dose, source_document_id := sdi }
    allergies := p.allergies.map fun a =>
      match a with
      | .strA s => .objA (some s) none
      | .objA sub r => .objA sub r
    summary := jsOrS p.summary none
    mrn := none }

/-! ### Conflict detection (`detectConflicts`) -/

/-- A detected conflict (the fields read by callers and claims; the
source additionally attaches `existing`/`incoming`/`evidence` payloads
that no modelled logic inspects). -/
structure Conflict where
  field : String
  type : String
  severity : String
  action : String
  message : String
deriving DecidableEq, Repr

/-- Per-category merge-safety flags. -/
structure SafeToMerge where
  procedures : Bool
  diagnoses : Bool
  medications : Bool
  allergies : Bool
deriving DecidableEq, Repr

/-- The existing patient chart passed to `detectConflicts` (the
`Array.isArray` branches; the JSON-string fallbacks of the source parse
database columns into exactly these lists). -/
structure PatientChart where
  allergies : List AllergyEntry := []
  medications : List ChartMed := []
  surgeries : List ChartSurgery := []
  mrn : Option String := none
deriving DecidableEq, Repr

/-- Result record of `detectConflicts`. -/
structure DetectResult where
  hasConflicts : Bool
  hasCritical : Bool
  conflicts : List Conflict
  safeToMerge : SafeToMerge
deriving DecidableEq, Repr

/-- A real (non-sentinel, non-empty) allergy substance. -/
def realAllergyStr (s : String) : Bool :=
  !(incl (lowerStr s) "nkda") && !(incl (lowerStr s) "no known") &&
    s.toList.length > 0

/-- `Array.join(', ')`. -/
def joinComma : List String → String
  | [] => ""
  | [x] => x
  | x :: y :: t => x ++ ", " ++ joinComma (y :: t)

/-- `String.replace(/\D/g, '')`: keep only digits. -/
def digitsOnly (s : String) : String := String.mk (s.toList.filter isDigitC)

/-- `levenshteinSimilar` of the source: containment or word-overlap ratio
at least the threshold (0.7 at the call site). -/
def levenshteinSimilar (str1 str2 : String) (threshold : ℚ) : Bool :=
  if str1.toList.isEmpty || str2.toList.isEmpty then false
  else
    let longer := if str1.toList.length > str2.toList.length then str1 else str2
    let shorter := if str1.toList.length > str2.toList.length then str2 else str1
    if longer.toList.isEmpty then true
    else if containsSub longer.toList shorter.toList ||
        containsSub shorter.toList longer.toList then true
    else
      let words1 := splitWs str1.toList
      let words2 := splitWs str2.toList
      let common := words1.filter fun w => words2.contains w
      decide (threshold ≤ (common.length : ℚ) / (max words1.length words2.length : ℚ))

/-- `s.toLowerCase().trim()` applied to each procedure name. -/
def lowTrim (s : String) : String := trimStr (lowerStr s)

/-- Procedure-overlap test of the surgery-date conflict loop. -/
def hasOverlapB (ns es : ChartSurgery) : Bool :=
  let newProcs := ns.procedures.map lowTrim
  let existingProcs := es.procedures.map lowTrim
  newProcs.any fun np =>
    existingProcs.any fun ep =>
      incl np ep || incl ep np || levenshteinSimilar np ep (7/10)

/-- The conflict pushed by the surgery-date loop. -/
def mkDateConflict (es ns : ChartSurgery) : Conflict :=
  { field := "surgery_date", type := "date_mismatch", severity := "warning"
    action := "blocked_merge_needs_review"
    message := "Surgery date conflict: chart has " ++ es.date.getD "" ++
      ", document says " ++ ns.date.getD "" }

/-- The surgery-date double loop of `detectConflicts`: for each incoming
surgery with a truthy date, every existing surgery with a truthy date,
overlapping procedures and a different date yields one conflict, in loop
order. -/
def surgeryDateConflicts (newS existS : List ChartSurgery) : List Conflict :=
  newS.flatMap fun ns =>
    if !optTruthy ns.date then []
    else
      existS.filterMap fun es =>
        if !optTruthy es.date then none
        else if hasOverlapB ns es && !(ns.date = es.date) then
          some (mkDateConflict es ns)
        else none

/-- Guard of the first allergy-polarity conflict: chart says NKDA but
the incoming data has a real allergy. -/
def dcGuard1 (extractedData : ChartData) (existingChart : PatientChart) : Bool :=
  (existingChart.allergies.any fun a => nkdaLikeStr (allergySubOf a)) &&
    (extractedData.allergies.any fun a => realAllergyStr (allergySubOf a))

/-- Guard of the second allergy-polarity conflict: chart has a real
allergy but the incoming data says NKDA (and has no real allergy). -/
def dcGuard2 (extractedData : ChartData) (existingChart : PatientChart) : Bool :=
  (existingChart.allergies.any fun a => realAllergyStr (allergySubOf a)) &&
    (extractedData.allergies.any fun a => nkdaLikeStr (allergySubOf a)) &&
    !(extractedData.allergies.any fun a => realAllergyStr (allergySubOf a))

/-- The `nkda_vs_allergy` conflict push. -/
def dcConflicts1 (extractedData : ChartData) (existingChart : PatientChart) :
    List Conflict :=
  if dcGuard1 extractedData existingChart then
    [{ field := "allergies", type := "nkda_vs_allergy", severity := "critical"
       action := "blocked_merge_needs_review"
       message := "Chart says NKDA but document lists allergies: " ++
         joinComma ((extractedData.allergies.filter fun a =>
           !(incl (lowerStr (allergySubOf a)) "nkda")).map allergySubOf) }]
  else []

/-- The `allergy_vs_nkda` conflict push. -/
def dcConflicts2 (extractedData : ChartData) (existingChart : PatientChart) :
    List Conflict :=
  if dcGuard2 extractedData existingChart then
    [{ field := "allergies", type := "allergy_vs_nkda", severity := "warning"
       action := "blocked_merge_needs_review"
       message := "Chart has allergies (" ++
         joinComma ((existingChart.allergies.filter fun a =>
           !(incl (lowerStr (allergySubOf a)) "nkda")).map allergySubOf) ++
         ") but document says NKDA" }]
  else []

/-- Firing condition of the MRN-mismatch check: both values truthy, both
digit-only forms non-empty and unequal. -/
def dcMrnFired (extractedData : ChartData) (existingChart : PatientChart) : Bool :=
  (optTruthy extractedData.mrn && optTruthy existingChart.mrn) &&
    !(digitsOnly (existingChart.mrn.getD "")).toList.isEmpty &&
    !(digitsOnly (extractedData.mrn.getD "")).toList.isEmpty &&
    !(digitsOnly (existingChart.mrn.getD "") = digitsOnly (extractedData.mrn.getD ""))

/-- The `mrn_mismatch` conflict push. -/
def dcConflictsMrn (extractedData : ChartData) (existingChart : PatientChart) :
    List Conflict :=
  if dcMrnFired extractedData existingChart then
    [{ field := "mrn", type := "mrn_mismatch", severity := "critical"
       action := "blocked_merge_needs_review"
       message := "MRN mismatch: chart has " ++ existingChart.mrn.getD "" ++
         ", document has " ++ extractedData.mrn.getD "" }]
  else []

/-- The full conflict list of `detectConflicts`, in push order. -/
def dcAllConflicts (extractedData : ChartData) (existingChart : PatientChart) :
    List Conflict :=
  dcConflicts1 extractedData existingChart ++
    dcConflicts2 extractedData existingChart ++
    surgeryDateConflicts extractedData.surgeries existingChart.surgeries ++
    dcConflictsMrn extractedData existingChart

/-- `detectConflicts` of `safeExtractionPipeline.js`.  The `safeToMerge`
flags start `true` and are only ever assigned `false` by the source; the
record below holds their final values after the three conflict sections
have run (an MRN mismatch clears all four). -/
def detectConflicts (extractedData : ChartData) (existingChart : PatientChart) :
    DetectResult :=
  let conflicts := dcAllConflicts extractedData existingChart
  let mrnFired := dcMrnFired extractedData existingChart
  { hasConflicts := !conflicts.isEmpty
    hasCritical := conflicts.any fun c => c.severity == "critical"
    conflicts := conflicts
    safeToMerge :=
      { procedures := !mrnFired &&
          (surgeryDateConflicts extractedData.surgeries existingChart.surgeries).isEmpty
        diagnoses := !mrnFired
        medications := !mrnFired
        allergies := !mrnFired && !dcGuard1 extractedData existingChart &&
          !dcGuard2 extractedData existingChart } }

/-! ### Merge-decision core of `processDocumentSafe` -/

/-- Validation record built by `processDocumentSafe` Step 4. -/
structure Validation where
  passed : Bool
  issues : List Issue
  hasCritical : Bool
  hasWarnings : Bool
  invariants : Invariants
  field_confidence : FieldConfidence
  missing_fields : List String
deriving DecidableEq, Repr

/-- The result record of `processDocumentSafe` (the fields the claims
and callers consult). -/
structure PipelineResult where
  success : Bool
  status : String
  pass2 : Option Extraction
  validation : Option Validation
  confidence : Confidence
  canMerge : Bool
  needsReview : Bool
  reviewReasons : List String
  model : Option String
  sectionsFound : List String
deriving DecidableEq, Repr

/-- Auto-merge threshold constant. -/
def CONFIDENCE_AUTO_MERGE : ℚ := 80/100

/-- Review-recommended threshold constant. -/
def CONFIDENCE_REVIEW_RECOMMENDED : ℚ := 60/100

/-- `(score * 100).toFixed(0)` for the non-negative scores that occur
here (JS half-away-from-zero and `round` agree on non-negatives). -/
def fmtPercent0 (q : ℚ) : String := toString (round (q * 100) : ℤ)

/-- Step 4 of `processDocumentSafe`: the validation record built from
the header-slice violations.  Every issue is emitted with code
`HEADER_SLICE_VIOLATION` and severity `warning`, and `hasCritical` is the
literal `false`. -/
def pipeValidationOf (text : String) : Validation :=
  { passed := (hsViolations text).isEmpty
    issues := (hsViolations text).map fun v =>
      { code := "HEADER_SLICE_VIOLATION", message := v, severity := "warning" }
    hasCritical := false
    hasWarnings := !(hsViolations text).isEmpty
    invariants := hsInvariants text
    field_confidence := (computeFieldConfidence (hsExtraction text) text).field_confidence
    missing_fields := (computeFieldConfidence (hsExtraction text) text).missing_fields }

/-- Step 5 of `processDocumentSafe`: the merge-eligibility decision.
`reasons0` holds the review reasons pushed so far (the header-slice
violations, pushed in Step 2); the branches append their own reasons. -/
def mergeDecide (validation : Validation) (confidence : Confidence)
    (reasons0 : List String) (pass2 : Extraction)
    (sectionsFound : List String) : PipelineResult :=
  if CONFIDENCE_AUTO_MERGE ≤ confidence.score ∧ validation.passed = true then
    { success := true, status := "extracted", pass2 := some pass2
      validation := some validation, confidence := confidence
      canMerge := true, needsReview := false, reviewReasons := reasons0
      model := some "header-slice-regex", sectionsFound := sectionsFound }
  else if CONFIDENCE_REVIEW_RECOMMENDED ≤ confidence.score then
    { success := true, status := "extracted", pass2 := some pass2
      validation := some validation, confidence := confidence
      canMerge := true, needsReview := false
      reviewReasons := reasons0 ++
        (if confidence.score < CONFIDENCE_AUTO_MERGE then
          ["Confidence below auto-merge threshold - review recommended"]
        else [])
      model := some "header-slice-regex", sectionsFound := sectionsFound }
  else
    { success := true, status := "needs_review", pass2 := some pass2
      validation := some validation, confidence := confidence
      canMerge := false, needsReview := true
      reviewReasons := reasons0 ++
        ["Confidence too low (" ++ fmtPercent0 confidence.score ++ "%)"]
      model := some "header-slice-regex", sectionsFound := sectionsFound }

/-- The success path of `processDocumentSafe` (Steps 2, 4 and 5) after
text extraction succeeded: header-slice extraction, validation from the
header-slice violations, confidence recomputation with the pipeline
scorer (`computeConfidence(result.pass2)`), and the merge-eligibility
decision.  Step 3 (optional LLM enhancement) is skipped: the engine is
modelled with the enrichment collaborator unavailable
(`isLLMAvailable()` false), its deterministic core. -/
def processSuccess (text : String) : PipelineResult :=
  mergeDecide (pipeValidationOf text)
    (computeConfidencePipe (hsExtraction text))
    (hsViolations text)
    (hsExtraction text)
    ((sliceByHeaders text).map Prod.fst)

/-- `processDocumentSafe` after the text-extraction collaborator returned
`text` (file handling, PDF parsing and OCR detection are outside this
core per the spec); `charCount` is the text length, and a short text
takes the early needs-review return with no validation. -/
def processCore (text : String) : PipelineResult :=
  if text.toList.length < 200 then
    { success := false, status := "needs_review", pass2 := none
      validation := none, confidence := { score := 0, breakdown := [] }
      canMerge := false, needsReview := true
      reviewReasons := ["Text extraction failed or document may need OCR"]
      model := none, sectionsFound := [] }
  else processSuccess text

/-! ### Spec-modelled confidence formulas (for the refinement comparison
of the confidence-scoring claim) -/

/-- Modelled from the spec: the header-slice presence-weight sum, written
as one flat sum of the fixed per-signal weights. -/
def specHsPresenceSum (e : Extraction) : ℚ :=
  (if optTruthy e.surgery.date then 20/100 else 0) +
  (if !e.surgery.procedures.isEmpty then 25/100 else 0) +
  (if !e.diagnoses.preop.isEmpty then 15/100 else 0) +
  (if !e.diagnoses.postop.isEmpty then 15/100 else 0) +
  (if !e.medications.isEmpty then 10/100 else 0) +
  (if !e.allergies.isEmpty then 5/100 else 0) +
  (if optTruthy e.doc.facility then 10/100 else 0)

/-- Modelled from the spec: the header-present-but-list-empty violation
count — a `_header_exists` flag set while the matching `_extracted`
flag is clear.  (The program's scorer counts differently: see
`hsViolationCount`.) -/
def specHsViolationCount (inv : Invariants) : ℚ :=
  (if inv.preop_diagnoses_header_exists && !inv.preop_diagnoses_extracted
   then 1 else 0) +
  (if inv.postop_diagnoses_header_exists && !inv.postop_diagnoses_extracted
   then 1 else 0) +
  (if inv.procedures_header_exists && !inv.procedures_extracted then 1 else 0)

/-- Modelled from the spec: sum of presence weights, minus a fixed 0.15
penalty per header-present-but-list-empty violation, floored at 0,
rounded to two decimals. -/
def specHsConfidenceScore (e : Extraction) (inv : Invariants) : ℚ :=
  round2 (max 0 (specHsPresenceSum e - 15/100 * specHsViolationCount inv))

/-- Modelled from the spec: the pipeline scorer's presence-weight sum,
written as one flat sum. -/
def specPipePresenceSum (e : Extraction) : ℚ :=
  (if optTruthy e.surgery.date then 25/100 else 0) +
  (if !e.surgery.procedures.isEmpty then 20/100 else 0) +
  (if 0 < e.diagnoses.preop.length + e.diagnoses.postop.length then 20/100 else 0) +
  (if !e.allergies.isEmpty then 10/100 else 0) +
  (if !e.medications.isEmpty then 10/100 else 0) +
  (if optTruthy e.doc.facility || optTruthy e.doc.provider || optTruthy e.doc.mrn
   then 10/100 else 0) +
  (if optTruthy e.evidence.surgery_date || optTruthy e.evidence.procedures_section ||
      optTruthy e.evidence.preop_dx_section || optTruthy e.evidence.postop_dx_section
   then 5/100 else 0)

/-- The score the pipeline scorer actually computes: the presence sum
capped at 1.0, with no violation penalty and no rounding. -/
def specPipeScore (e : Extraction) : ℚ := min 1 (specPipePresenceSum e)

/-! ## Helper lemmas -/

theorem lower_upper_char (c : Char) : jsToLowerC (jsToUpperC c) = jsToLowerC c := by
  unfold jsToUpperC
  split <;> rfl

theorem lower_lower_char (c : Char) : jsToLowerC (jsToLowerC c) = jsToLowerC c := by
  nth_rewrite 2 [jsToLowerC.eq_def]
  split <;> rfl

theorem lowerL_capFirstL (l : List Char) : lowerL (capFirstL l) = lowerL l := by
  cases l with
  | nil => rfl
  | cons c t => simp only [capFirstL, lowerL, List.map_cons, lower_upper_char]

theorem lowerL_idem (l : List Char) : lowerL (lowerL l) = lowerL l := by
  induction l with
  | nil => rfl
  | cons c t ih =>
    simp only [lowerL, List.map_cons, lower_lower_char] at ih ⊢
    rw [ih]

theorem containsSub_refl (l : List Char) : containsSub l l = true := by
  cases l with
  | nil => rfl
  | cons c t => simp [containsSub, List.take_length]

theorem toList_mk (l : List Char) : (String.mk l).toList = l := rfl

theorem mem_addUnique {x y : String} {acc : List String} :
    x ∈ addUnique acc y ↔ x ∈ acc ∨ x = y := by
  unfold addUnique
  split
  · rename_i hy
    constructor
    · exact Or.inl
    · rintro (h | rfl)
      · exact h
      · exact hy
  · simp [List.mem_append]

theorem mem_foldl_addUnique (x : String) :
    ∀ (l acc : List String), x ∈ l.foldl addUnique acc ↔ x ∈ acc ∨ x ∈ l := by
  intro l
  induction l with
  | nil => simp
  | cons y t ih =>
    intro acc
    rw [List.foldl_cons, ih, mem_addUnique]
    simp [List.mem_cons]
    tauto

theorem mem_dedupeKeepFirst {x : String} {l : List String} :
    x ∈ dedupeKeepFirst l ↔ x ∈ l := by
  simpa [dedupeKeepFirst] using mem_foldl_addUnique x l []

theorem testAlts_spec {alts : List String} {l : List Char}
    (h : testAlts alts l = true) :
    ∃ d ∈ alts, containsSub (lowerL l) d.toList = true := by
  simpa [testAlts, List.any_eq_true] using h

theorem lower_capFirstStr (s : String) :
    lowerL (capFirstStr s).toList = lowerL s.toList := by
  show lowerL (capFirstL s.toList) = lowerL s.toList
  exact lowerL_capFirstL s.toList

theorem known_drugs_lower : ∀ a ∈ KNOWN_DRUGS, lowerL a.toList = a.toList := by
  decide

theorem known_drugs_vocab : ∀ a ∈ KNOWN_DRUGS, a ∈ MED_VOCAB := by decide

theorem med_patterns_vocab :
    ∀ alts ∈ MED_PATTERNS, ∀ a ∈ alts, a ∈ MED_VOCAB ∧ lowerL a.toList = a.toList := by
  decide

theorem sched_allow_vocab : ∀ a ∈ SCHEDULED_ALLOW, a ∈ MED_VOCAB := by decide

theorem firstMatchAlts_spec {alts : List String} :
    ∀ {l m : List Char}, firstMatchAlts alts l = some m →
      ∃ a ∈ alts, lowerL m = lowerL a.toList := by
  intro l
  induction l with
  | nil => intro m h; simp [firstMatchAlts] at h
  | cons c t ih =>
    intro m h
    simp only [firstMatchAlts] at h
    split at h
    · rename_i a ha
      refine ⟨a, List.mem_of_find?_eq_some ha, ?_⟩
      have hp := List.find?_some ha
      have hm := Option.some.inj h
      rw [← hm]
      exact of_decide_eq_true hp
    · exact ih h

theorem layerA_vocab {t : List Char} {m : String} (h : m ∈ layerACands t) :
    ∃ d ∈ MED_VOCAB, containsSub (lowerL m.toList) d.toList = true := by
  unfold layerACands at h
  rw [List.mem_flatMap] at h
  obtain ⟨inner, _, h⟩ := h
  split at h
  case isFalse => simp at h
  rw [List.mem_flatMap] at h
  obtain ⟨part, _, h⟩ := h
  split at h
  · rename_i hcond
    simp only [List.mem_singleton] at h
    subst h
    have hk : knownDrugsTest part = true := by
      simp only [Bool.and_eq_true] at hcond
      exact hcond.2
    obtain ⟨d, hd, hc⟩ := testAlts_spec hk
    refine ⟨d, known_drugs_vocab d hd, ?_⟩
    rw [lower_capFirstStr]
    exact hc
  · split at h
    · split at h
      · rename_i mm hmm
        simp only [List.mem_singleton] at h
        subst h
        obtain ⟨a, ha, hla⟩ := firstMatchAlts_spec hmm
        refine ⟨a, known_drugs_vocab a ha, ?_⟩
        rw [lower_capFirstStr]
        show containsSub (lowerL mm) a.toList = true
        rw [hla, known_drugs_lower a ha]
        exact containsSub_refl _
      · simp at h
    · simp at h

theorem scanWordAlts_subset {alts : List String} :
    ∀ {fuel : Nat} {prev : Option Char} {l : List Char} {a : String},
      a ∈ scanWordAlts alts fuel prev l → a ∈ alts := by
  intro fuel
  induction fuel with
  | zero => intro prev l a h; simp [scanWordAlts] at h
  | succ n ih =>
    intro prev l a h
    cases l with
    | nil => simp [scanWordAlts] at h
    | cons c t =>
      simp only [scanWordAlts] at h
      split at h
      · rename_i x hx
        rcases List.mem_cons.mp h with rfl | h2
        · split at hx
          · exact List.mem_of_find?_eq_some hx
          · cases hx
        · exact ih h2
      · exact ih h

theorem layerB_vocab {t : List Char} {m : String} (h : m ∈ layerBCands t) :
    ∃ d ∈ MED_VOCAB, containsSub (lowerL m.toList) d.toList = true := by
  unfold layerBCands at h
  rw [List.mem_flatMap] at h
  obtain ⟨alts, halts, h⟩ := h
  rw [List.mem_map] at h
  obtain ⟨a, ha, rfl⟩ := h
  obtain ⟨hv, hlow⟩ := med_patterns_vocab alts halts a (scanWordAlts_subset ha)
  refine ⟨a, hv, ?_⟩
  rw [lower_capFirstStr]
  show containsSub (lowerL (lowerL a.toList)) a.toList = true
  rw [lowerL_idem, hlow]
  exact containsSub_refl _

theorem layerC_vocab {t : List Char} {m : String} (h : m ∈ layerCCands t) :
    ∃ d ∈ MED_VOCAB, containsSub (lowerL m.toList) d.toList = true := by
  unfold layerCCands at h
  rw [List.mem_filterMap] at h
  obtain ⟨w, _, hsome⟩ := h
  split at hsome
  · rename_i hg
    have hm := Option.some.inj hsome
    subst hm
    simp only [Bool.and_eq_true] at hg
    obtain ⟨d, hd, hc⟩ := testAlts_spec hg.2
    refine ⟨d, sched_allow_vocab d hd, ?_⟩
    rw [lower_capFirstStr]
    show containsSub (lowerL (lowerL w)) d.toList = true
    rw [lowerL_idem]
    exact hc
  · cases hsome

/-- C7: every name reported by medication extraction contains,
case-insensitively, a drug name from the fixed vocabulary
(`MED_VOCAB`, the union of the known-drug alternation, the layer-B
pattern words and the `scheduled` allow-list); no free-form span outside
the vocabulary is ever reported. -/
theorem c7_medications_only_from_vocabulary :
    ∀ (text m : String), m ∈ extractMedications text →
      ∃ d ∈ MED_VOCAB, containsSub (lowerL m.toList) d.toList = true := by
  intro text m hm
  unfold extractMedications at hm
  split at hm
  · simp at hm
  · rw [mem_dedupeKeepFirst] at hm
    rcases List.mem_append.mp hm with hm2 | hm2
    · rcases List.mem_append.mp hm2 with hm3 | hm3
      · exact layerA_vocab hm3
      · exact layerB_vocab hm3
    · exact layerC_vocab hm2

/-- Witness for C7 at a concrete input: `Morphine` is reported for the
text `morphine drip`, and the theorem yields its vocabulary containment. -/
theorem c7_witness :
    "Morphine" ∈ extractMedications "morphine drip" ∧
      ∃ d ∈ MED_VOCAB, containsSub (lowerL ("Morphine" : String).toList) d.toList = true :=
  ⟨by decide, c7_medications_only_from_vocabulary "morphine drip" "Morphine" (by decide)⟩

theorem mk_toList (s : String) : String.mk s.toList = s := rfl

theorem data_ne_nil_of_digits {s : String} (h : digitsOnly s ≠ "") :
    ¬s.data = [] := by
  intro hnil
  exact h (by unfold digitsOnly; rw [show s.toList = s.data from rfl, hnil]; rfl)

theorem digits_data_ne_nil {s : String} (h : digitsOnly s ≠ "") :
    ¬(digitsOnly s).data = [] := by
  intro hnil
  exact h (by
    rw [← mk_toList (digitsOnly s),
      show (digitsOnly s).toList = (digitsOnly s).data from rfl, hnil])

theorem surgeryDateConflicts_fields {newS existS : List ChartSurgery} {c : Conflict}
    (hc : c ∈ surgeryDateConflicts newS existS) :
    c.field = "surgery_date" ∧ c.type = "date_mismatch" := by
  unfold surgeryDateConflicts at hc
  rw [List.mem_flatMap] at hc
  obtain ⟨ns, _, hc⟩ := hc
  split at hc
  · simp at hc
  · rw [List.mem_filterMap] at hc
    obtain ⟨es, _, hsome⟩ := hc
    split at hsome
    · cases hsome
    · split at hsome
      · have := Option.some.inj hsome
        subst this
        exact ⟨rfl, rfl⟩
      · cases hsome

/-- C1: when both MRN values are present with non-empty, unequal
digit-only forms, `detectConflicts` reports a critical `mrn_mismatch`
conflict and clears every one of the four `safeToMerge` flags. -/
theorem c1_mrn_mismatch_blocks_all :
    ∀ (d : ChartData) (chart : PatientChart) (m1 m2 : String),
      d.mrn = some m1 → chart.mrn = some m2 →
      digitsOnly m1 ≠ "" → digitsOnly m2 ≠ "" →
      digitsOnly m1 ≠ digitsOnly m2 →
      (∃ c ∈ (detectConflicts d chart).conflicts,
        c.type = "mrn_mismatch" ∧ c.severity = "critical") ∧
      (detectConflicts d chart).safeToMerge =
        { procedures := false, diagnoses := false, medications := false,
          allergies := false } := by
  intro d chart m1 m2 hd hc h1 h2 hne
  have hfired : dcMrnFired d chart = true := by
    unfold dcMrnFired
    rw [hd, hc]
    simp [optTruthy, Ne.symm hne]
    exact ⟨⟨⟨data_ne_nil_of_digits h1, data_ne_nil_of_digits h2⟩,
      digits_data_ne_nil h2⟩, digits_data_ne_nil h1⟩
  constructor
  · have hmem : ∃ c ∈ dcConflictsMrn d chart,
        c.type = "mrn_mismatch" ∧ c.severity = "critical" := by
      simp [dcConflictsMrn, hfired]
    obtain ⟨c, hcm, hprops⟩ := hmem
    exact ⟨c, List.mem_append.mpr (Or.inr hcm), hprops⟩
  · show SafeToMerge.mk _ _ _ _ = _
    rw [hfired]
    rfl

/-- Witness for C1 at a concrete call. -/
theorem c1_witness :
    (∃ c ∈ (detectConflicts { mrn := some "A12" } { mrn := some "34" }).conflicts,
      c.type = "mrn_mismatch" ∧ c.severity = "critical") ∧
    (detectConflicts { mrn := some "A12" } { mrn := some "34" }).safeToMerge =
      { procedures := false, diagnoses := false, medications := false,
        allergies := false } :=
  c1_mrn_mismatch_blocks_all _ _ "A12" "34" rfl rfl (by decide) (by decide) (by decide)

/-- C2: the chart-format object built by `convertToChartFormat` carries
no MRN (`none`), so composing it with `detectConflicts` (as the conflict
endpoint does) can never produce an `mrn_mismatch` conflict. -/
theorem c2_pipeline_chart_has_no_mrn :
    ∀ (e : Extraction) (id : Nat) (chart : PatientChart),
      (convertToChartFormat e id).mrn = none ∧
      ((detectConflicts (convertToChartFormat e id) chart).conflicts.filter
        fun c => c.type == "mrn_mismatch") = [] := by
  intro e id chart
  refine ⟨rfl, ?_⟩
  show (dcAllConflicts (convertToChartFormat e id) chart).filter _ = []
  unfold dcAllConflicts
  rw [List.filter_append, List.filter_append, List.filter_append]
  have ha : (dcConflicts1 (convertToChartFormat e id) chart).filter
      (fun c => c.type == "mrn_mismatch") = [] := by
    unfold dcConflicts1; split <;> rfl
  have hb : (dcConflicts2 (convertToChartFormat e id) chart).filter
      (fun c => c.type == "mrn_mismatch") = [] := by
    unfold dcConflicts2; split <;> rfl
  have hsd : (surgeryDateConflicts (convertToChartFormat e id).surgeries
      chart.surgeries).filter (fun c => c.type == "mrn_mismatch") = [] := by
    rw [List.filter_eq_nil_iff]
    intro c hcmem
    have := (surgeryDateConflicts_fields hcmem).2
    simp [this]
  have hmrnNone : (convertToChartFormat e id).mrn = none := rfl
  have hm : dcConflictsMrn (convertToChartFormat e id) chart = [] := by
    unfold dcConflictsMrn dcMrnFired
    rw [hmrnNone]
    rfl
  rw [ha, hb, hsd, hm]
  rfl

/-- C6: an existing real allergy against an incoming NKDA-only
extraction yields exactly one allergy-field conflict, of type
`allergy_vs_nkda` with severity `warning`, and blocks the allergy merge. -/
theorem c6_allergy_vs_nkda_single_warning :
    ∀ (d : ChartData) (chart : PatientChart),
      (chart.allergies.any fun a => realAllergyStr (allergySubOf a)) = true →
      (d.allergies.any fun a => nkdaLikeStr (allergySubOf a)) = true →
      (d.allergies.any fun a => realAllergyStr (allergySubOf a)) = false →
      (((detectConflicts d chart).conflicts.filter fun c => c.field == "allergies").map
        fun c => (c.type, c.severity)) = [("allergy_vs_nkda", "warning")] ∧
      (detectConflicts d chart).safeToMerge.allergies = false := by
  intro d chart hreal hnk hnoreal
  have hg1 : dcGuard1 d chart = false := by
    unfold dcGuard1; rw [hnoreal]; simp
  have hg2 : dcGuard2 d chart = true := by
    unfold dcGuard2; rw [hreal, hnk, hnoreal]; rfl
  constructor
  · show ((dcAllConflicts d chart).filter _).map _ = _
    unfold dcAllConflicts
    rw [List.filter_append, List.filter_append, List.filter_append]
    have ha : dcConflicts1 d chart = [] := by simp [dcConflicts1, hg1]
    have hb : (dcConflicts2 d chart).filter (fun c => c.field == "allergies") =
        dcConflicts2 d chart := by
      unfold dcConflicts2; rw [hg2]; rfl
    have hsd : (surgeryDateConflicts d.surgeries chart.surgeries).filter
        (fun c => c.field == "allergies") = [] := by
      rw [List.filter_eq_nil_iff]
      intro c hcmem
      have := (surgeryDateConflicts_fields hcmem).1
      simp [this]
    have hm : (dcConflictsMrn d chart).filter (fun c => c.field == "allergies") = [] := by
      unfold dcConflictsMrn; split <;> rfl
    rw [ha, hb, hsd, hm]
    unfold dcConflicts2
    rw [hg2]
    rfl
  · show (!dcMrnFired d chart && !dcGuard1 d chart && !dcGuard2 d chart) = false
    rw [hg2]
    simp

/-- Witness for C6 at a concrete call. -/
theorem c6_witness :
    (((detectConflicts { allergies := [.strA "NKDA"] }
        { allergies := [.strA "Penicillin"] }).conflicts.filter
          fun c => c.field == "allergies").map
      fun c => (c.type, c.severity)) = [("allergy_vs_nkda", "warning")] ∧
    (detectConflicts { allergies := [.strA "NKDA"] }
      { allergies := [.strA "Penicillin"] }).safeToMerge.allergies = false :=
  c6_allergy_vs_nkda_single_warning _ _ (by decide) (by decide) (by decide)

/-- C5 counterexample: the text `NKDAX` contains `NKDA` as a substring,
yet allergy extraction returns `[]`, not the `['NKDA']` sentinel — the
source requires a whole-word `\bNKDA\b` match. -/
theorem c5_counterexample_nkda_substring :
    containsSub ("NKDAX" : String).toList ("NKDA" : String).toList = true ∧
      extractAllergies "NKDAX" = [] := by
  exact ⟨by decide, by decide⟩

/-- C5 (amended): for every text containing `NKDA` as a whole word
(case-insensitively) or a phrase matching `no known (drug) allergies`
with flexible whitespace, `extractAllergies` returns exactly the single
sentinel `['NKDA']`, overriding any other allergy-like content. -/
theorem c5_nkda_sentinel_overrides :
    ∀ text : String,
      (hasWordScan "nkda" none text.toList || hasNoKnown text.toList) = true →
      extractAllergies text = ["NKDA"] := by
  intro text h
  unfold extractAllergies
  split
  · rename_i he
    have hnil : text.toList = [] := by
      cases hh : text.toList with
      | nil => rfl
      | cons a t => rw [hh] at he; cases he
    rw [hnil] at h
    cases h
  · simp only [h, if_true]

/-- Witness for C5 (amended) at a concrete input. -/
theorem c5_witness :
    (hasWordScan "nkda" none ("Patient NKDA." : String).toList ||
      hasNoKnown ("Patient NKDA." : String).toList) = true ∧
      extractAllergies "Patient NKDA." = ["NKDA"] :=
  ⟨by decide, c5_nkda_sentinel_overrides "Patient NKDA." (by decide)⟩

theorem mergeDecide_validation (v : Validation) (c : Confidence)
    (r : List String) (p : Extraction) (s : List String) :
    (mergeDecide v c r p s).validation = some v := by
  unfold mergeDecide
  split
  · rfl
  · split <;> rfl

theorem mergeDecide_confidence (v : Validation) (c : Confidence)
    (r : List String) (p : Extraction) (s : List String) :
    (mergeDecide v c r p s).confidence = c := by
  unfold mergeDecide
  split
  · rfl
  · split <;> rfl

theorem mergeDecide_canMerge (v : Validation) (c : Confidence)
    (r : List String) (p : Extraction) (s : List String)
    (h : CONFIDENCE_REVIEW_RECOMMENDED ≤ c.score) :
    (mergeDecide v c r p s).canMerge = true := by
  unfold mergeDecide
  by_cases h1 : CONFIDENCE_AUTO_MERGE ≤ c.score ∧ v.passed = true
  · rw [if_pos h1]
  · rw [if_neg h1, if_pos h]

theorem mergeDecide_reasons_ne (v : Validation) (c : Confidence)
    (r : List String) (p : Extraction) (s : List String) (h : r ≠ []) :
    (mergeDecide v c r p s).reviewReasons ≠ [] := by
  unfold mergeDecide
  split
  · exact h
  · split <;>
    · intro hh
      rw [List.append_eq_nil] at hh
      exact h hh.1

/-- C3: (a) `checkInvariants` on a pass-1 result with a procedures
section and a pass-2 result with an empty procedure list reports exactly
one violation with the procedures-specific code `MISSING_PROCEDURES`,
and that violation is critical; (b) when the slicer's section map has a
procedures header but the extracted procedures list is empty, the
pipeline core never produces a result that is auto-merge clean
(`canMerge` with status `extracted` and no review reason). -/
theorem c3_missing_procedures_blocks_auto_merge :
    (∀ (p1 : Pass1) (p2 : Extraction) (raw : String),
      p1.anchors.has_procedures_section = true →
      p2.surgery.procedures = [] →
      (((checkInvariants p1 p2 raw).1.issues.filter
          fun i => i.code == "MISSING_PROCEDURES").map fun i => i.severity) =
        ["critical"]) ∧
    (∀ text : String, 200 ≤ text.toList.length →
      (lookupKey (sliceByHeaders text) "procedures").isSome = true →
      hsProcedures text = [] →
      ¬((processCore text).canMerge = true ∧
        (processCore text).status = "extracted" ∧
        (processCore text).reviewReasons = [])) := by
  constructor
  · intro p1 p2 raw hp hproc
    show (((ciIssues p1 p2 raw).filter _).map _) = _
    unfold ciIssues
    rw [List.filter_append, List.filter_append, List.filter_append,
      List.filter_append]
    have h1 : (ciIssue1 p1 p2 raw).filter (fun i => i.code == "MISSING_PROCEDURES") = [] := by
      unfold ciIssue1; split <;> rfl
    have h3 : (ciIssue3 p1 p2).filter (fun i => i.code == "MISSING_PROCEDURES") = [] := by
      unfold ciIssue3; split <;> rfl
    have h4 : (ciIssue4 p1 p2).filter (fun i => i.code == "MISSING_PROCEDURES") = [] := by
      unfold ciIssue4; split <;> rfl
    have h5 : (ciMedIssues p2).filter (fun i => i.code == "MISSING_PROCEDURES") = [] := by
      unfold ciMedIssues
      rw [List.filter_map]
      have : ((fun i => i.code == "MISSING_PROCEDURES") ∘
          (fun m : MedEntry =>
            ({ code := "INVALID_MEDICATION"
               message := "Filtered invalid medication entry: \"" ++ medNameOf m ++ "\""
               severity := "info" } : Issue))) = fun _ => false := by
        funext m; rfl
      rw [this]
      simp
    have h2 : ciIssue2 p1 p2 =
        [{ code := "MISSING_PROCEDURES"
           message := "Document has Procedures section but no procedures were extracted"
           severity := "critical" }] := by
      unfold ciIssue2
      rw [hp, hproc]
      rfl
    rw [h1, h2, h3, h4, h5]
    rfl
  · intro text hlen hhdr hempty
    have hno : ¬(text.toList.length < 200) := by omega
    have hpc : processCore text = processSuccess text := by
      unfold processCore; rw [if_neg hno]
    rw [hpc]
    rintro ⟨-, -, hrr⟩
    have hviol : hsViolations text ≠ [] := by
      unfold hsViolations
      have hcond : ((hsInvariants text).procedures_header_exists &&
          !(hsInvariants text).procedures_extracted) = true := by
        show ((lookupKey (sliceByHeaders text) "procedures").isSome &&
          !(!(hsProcedures text).isEmpty)) = true
        rw [hhdr, hempty]
        rfl
      rw [hcond]
      simp [List.append_eq_nil]
    exact mergeDecide_reasons_ne _ _ _ _ _ hviol hrr

/-- Document text used by the C3 witness: a procedures header whose
section body yields no extracted items, padded past the 200-character
minimum. -/
def c3text : String :=
  "Date of Surgery: 2025-09-18\nProcedures Performed\nqqqq qqqq qqqq qqqq qqqq qqqq qqqq qqqq qqqq qqqq qqqq qqqq qqqq qqqq qqqq qqqq qqqq qqqq qqqq qqqq qqqq qqqq qqqq qqqq qqqq qqqq qqqq qqqq qqqq qqqq qqqq qqqq qqqq qqqq qqqq"

/-- Witness for C3 at concrete inputs (both conjuncts). -/
theorem c3_witness :
    ((((checkInvariants { anchors := { has_procedures_section := true } } {} "").1.issues.filter
        fun i => i.code == "MISSING_PROCEDURES").map fun i => i.severity) =
      ["critical"]) ∧
    ¬((processCore c3text).canMerge = true ∧
      (processCore c3text).status = "extracted" ∧
      (processCore c3text).reviewReasons = []) :=
  ⟨c3_missing_procedures_blocks_auto_merge.1 _ {} "" rfl rfl,
    c3_missing_procedures_blocks_auto_merge.2 c3text (by decide) (by decide) (by decide)⟩

/-- C4: on every successful run of the pipeline core (text long enough),
the validation record has `hasCritical = false`, every issue is a
`HEADER_SLICE_VIOLATION` warning, and whenever the recomputed confidence
reaches the 0.60 review threshold the result is merge-eligible,
regardless of any header-present-but-list-empty violations. -/
theorem c4_pipeline_validation_never_critical :
    ∀ text : String, 200 ≤ text.toList.length →
      ∃ v, (processCore text).validation = some v ∧ v.hasCritical = false ∧
        (∀ i ∈ v.issues, i.severity = "warning" ∧ i.code = "HEADER_SLICE_VIOLATION") ∧
        (CONFIDENCE_REVIEW_RECOMMENDED ≤ (processCore text).confidence.score →
          (processCore text).canMerge = true) := by
  intro text hlen
  have hno : ¬(text.toList.length < 200) := by omega
  have hpc : processCore text = processSuccess text := by
    unfold processCore; rw [if_neg hno]
  rw [hpc]
  refine ⟨pipeValidationOf text, mergeDecide_validation _ _ _ _ _, rfl, ?_, ?_⟩
  · intro i hi
    have hi2 : i ∈ (hsViolations text).map fun v =>
        ({ code := "HEADER_SLICE_VIOLATION", message := v,
           severity := "warning" } : Issue) := hi
    rw [List.mem_map] at hi2
    obtain ⟨v0, _, rfl⟩ := hi2
    exact ⟨rfl, rfl⟩
  · intro hs
    rw [show (processSuccess text).confidence =
      computeConfidencePipe (hsExtraction text) from
        mergeDecide_confidence _ _ _ _ _] at hs
    exact mergeDecide_canMerge _ _ _ _ _ hs

/-- Document text used by the C4 witness: 210 filler characters. -/
def c4text : String :=
  "xxxxxxxxxxxxxxxxxxxxxxxxxxxxxxxxxxxxxxxxxxxxxxxxxxxxxxxxxxxxxxxxxxxxxxxxxxxxxxxxxxxxxxxxxxxxxxxxxxxxxxxxxxxxxxxxxxxxxxxxxxxxxxxxxxxxxxxxxxxxxxxxxxxxxxxxxxxxxxxxxxxxxxxxxxxxxxxxxxxxxxxxxxxxxxxxxxxxxxxxxxxxxxxx"

/-- Witness for C4 at a concrete input. -/
theorem c4_witness :
    ∃ v, (processCore c4text).validation = some v ∧ v.hasCritical = false ∧
      (∀ i ∈ v.issues, i.severity = "warning" ∧ i.code = "HEADER_SLICE_VIOLATION") ∧
      (CONFIDENCE_REVIEW_RECOMMENDED ≤ (processCore c4text).confidence.score →
        (processCore c4text).canMerge = true) :=
  c4_pipeline_validation_never_critical c4text (by decide)

theorem specHsPresenceSum_nonneg (e : Extraction) : 0 ≤ specHsPresenceSum e := by
  unfold specHsPresenceSum
  split_ifs <;> norm_num

theorem hsViolationCount_nonneg (inv : Invariants) : 0 ≤ hsViolationCount inv := by
  unfold hsViolationCount
  split_ifs <;> norm_num

/-- C8 (amended): the header-slice scorer's score equals the
presence-weight sum minus a 0.15 penalty per *present* header —
`hsViolationCount` counts every `_header_exists` flag that is set,
because the scorer's `k.replace('_exists', '_extracted')` lookup names
keys the invariants object does not have, so a successfully extracted
list never cancels the penalty — floored at 0 and rounded to two
decimals; and the score `processDocumentSafe` recomputes at the end
uses the pipeline scorer, whose value is the (different) pipeline
presence sum capped at 1.0, with no penalty and no rounding. -/
theorem c8_confidence_formulas :
    (∀ (e : Extraction) (inv : Invariants),
      (computeConfidenceHS e inv).score =
        round2 (max 0 (specHsPresenceSum e - 15/100 * hsViolationCount inv))) ∧
    (∀ e : Extraction, (computeConfidencePipe e).score = specPipeScore e) := by
  constructor
  · intro e inv
    show round2 (if 0 < hsViolationCount inv then
        max 0 (specHsPresenceSum e - hsViolationCount inv * (15/100))
      else specHsPresenceSum e) =
      round2 (max 0 (specHsPresenceSum e - 15/100 * hsViolationCount inv))
    by_cases hv : 0 < hsViolationCount inv
    · rw [if_pos hv]
      congr 2
      ring
    · rw [if_neg hv]
      have h0 : hsViolationCount inv = 0 :=
        le_antisymm (not_lt.mp hv) (hsViolationCount_nonneg inv)
      rw [h0, mul_zero, sub_zero, max_eq_right (specHsPresenceSum_nonneg e)]
  · intro e
    rfl

/-- Document text used by the C8 counterexample: a surgery date plus a
procedures header whose body yields no extracted items, so the final
recomputed score can be compared with the penalised document-level
score. -/
def c8text : String :=
  "Date of Surgery: 2025-09-18\nProcedures Performed\nqqqq qqqq qqqq qqqq qqqq qqqq qqqq qqqq qqqq qqqq qqqq qqqq qqqq qqqq qqqq qqqq qqqq qqqq qqqq qqqq qqqq qqqq qqqq qqqq qqqq qqqq qqqq qqqq qqqq qqqq qqqq qqqq qqqq qqqq qqqq"

/-- Document text used by the C8 counterexample: a procedures header
whose body yields one successfully extracted item — so no
header-present-but-list-empty violation exists — preceded by filler so
the pipeline takes its success path. -/
def c8text2 : String :=
  "qqqq qqqq qqqq qqqq qqqq qqqq qqqq qqqq qqqq qqqq qqqq qqqq qqqq qqqq qqqq qqqq qqqq qqqq qqqq qqqq qqqq qqqq qqqq qqqq qqqq qqqq qqqq qqqq qqqq qqqq qqqq qqqq qqqq qqqq qqqq qqqq qqqq qqqq qqqq qqqq\nProcedures Performed\n1. Total Knee Replacement"

/-- C8 counterexample.  On `c8text2` there is no
header-present-but-list-empty violation (the violations list is empty
and the procedures list was extracted), so the claimed formula gives the
bare presence sum 0.25 — yet the header-slice score is 0.10, because the
scorer penalises the present header anyway.  And on `c8text` the
document-level header-slice score is 0.05 while the final confidence
`processDocumentSafe` returns after recomputation is 0.30, so the final
score does not follow the claimed formula either. -/
theorem c8_counterexample_penalty_without_violation :
    (extractWithHeaderSlice c8text2).violations = [] ∧
    specHsConfidenceScore (extractWithHeaderSlice c8text2).extraction
      (extractWithHeaderSlice c8text2).invariants = 25/100 ∧
    (extractWithHeaderSlice c8text2).confidence.score = 10/100 ∧
    (extractWithHeaderSlice c8text).confidence.score = 5/100 ∧
    (processCore c8text).confidence.score = 30/100 := by
  have hC1 : optTruthy (hsExtraction c8text2).surgery.date = false := by decide
  have hC2 : (hsExtraction c8text2).surgery.procedures.isEmpty = false := by decide
  have hC3 : (hsExtraction c8text2).diagnoses.preop.isEmpty = true := by decide
  have hC4 : (hsExtraction c8text2).diagnoses.postop.isEmpty = true := by decide
  have hC5 : (hsExtraction c8text2).medications.isEmpty = true := by decide
  have hC6 : (hsExtraction c8text2).allergies.isEmpty = true := by decide
  have hC7 : optTruthy (hsExtraction c8text2).doc.facility = false := by decide
  have hCinv : hsInvariants c8text2 =
      { preop_diagnoses_header_exists := false
        postop_diagnoses_header_exists := false
        procedures_header_exists := true
        preop_diagnoses_extracted := false
        postop_diagnoses_extracted := false
        procedures_extracted := true } := by decide
  have hB1 : optTruthy (hsExtraction c8text).surgery.date = true := by decide
  have hB2 : (hsExtraction c8text).surgery.procedures.isEmpty = true := by decide
  have hB3 : (hsExtraction c8text).diagnoses.preop.isEmpty = true := by decide
  have hB4 : (hsExtraction c8text).diagnoses.postop.isEmpty = true := by decide
  have hB5 : (hsExtraction c8text).medications.isEmpty = true := by decide
  have hB6 : (hsExtraction c8text).allergies.isEmpty = true := by decide
  have hB7 : optTruthy (hsExtraction c8text).doc.facility = false := by decide
  have hB8 : optTruthy (hsExtraction c8text).doc.provider = false := by decide
  have hB9 : optTruthy (hsExtraction c8text).doc.mrn = false := by decide
  have hDx : ¬(0 < (hsExtraction c8text).diagnoses.preop.length +
      (hsExtraction c8text).diagnoses.postop.length) := by decide
  have hEv : optTruthy (hsExtraction c8text).evidence.surgery_date = true := by decide
  have hinv : hsInvariants c8text =
      { preop_diagnoses_header_exists := false
        postop_diagnoses_header_exists := false
        procedures_header_exists := true
        preop_diagnoses_extracted := false
        postop_diagnoses_extracted := false
        procedures_extracted := false } := by decide
  refine ⟨?_, ?_, ?_, ?_, ?_⟩
  · show hsViolations c8text2 = []
    decide
  · show specHsConfidenceScore (hsExtraction c8text2) (hsInvariants c8text2) = 25/100
    unfold specHsConfidenceScore specHsPresenceSum
    rw [hCinv]
    simp only [hC1, hC2, hC3, hC4, hC5, hC6, hC7]
    norm_num [specHsViolationCount, round2]
  · show (computeConfidenceHS (hsExtraction c8text2) (hsInvariants c8text2)).score = 10/100
    unfold computeConfidenceHS
    rw [hCinv]
    simp only [hC1, hC2, hC3, hC4, hC5, hC6, hC7]
    norm_num [hsViolationCount, round2]
  · show (computeConfidenceHS (hsExtraction c8text) (hsInvariants c8text)).score = 5/100
    unfold computeConfidenceHS
    rw [hinv]
    simp only [hB1, hB2, hB3, hB4, hB5, hB6, hB7]
    norm_num [hsViolationCount, round2]
  · have hno : ¬(c8text.toList.length < 200) := by decide
    have hpc : processCore c8text = processSuccess c8text := by
      unfold processCore; rw [if_neg hno]
    rw [hpc,
      show (processSuccess c8text).confidence =
        computeConfidencePipe (hsExtraction c8text) from
          mergeDecide_confidence _ _ _ _ _]
    unfold computeConfidencePipe
    simp only [hB1, hB2, hB7, hB8, hB9, hB5, hB6, hEv]
    rw [if_neg hDx]
    norm_num

/-- C9 counterexample: with an empty extraction and an empty raw text
(which contains no keyword at all), `computeFieldConfidence` still
reports `patient_name` and `mrn` as missing. -/
theorem c9_counterexample_absent_fields_reported :
    (computeFieldConfidence {} "").missing_fields = ["patient_name", "mrn"] := by
  decide

theorem mfPatient_cases {p : Extraction} {x : String} (h : x ∈ mfPatient p) :
    x = "patient_name" := by
  unfold mfPatient at h
  split at h
  · simp at h
  · simpa using h

theorem mfMrn_cases {p : Extraction} {x : String} (h : x ∈ mfMrn p) :
    x = "mrn" := by
  unfold mfMrn at h
  split at h
  · simp at h
  · simpa using h

theorem mfAdmission_cases {p : Extraction} {lower x : String}
    (h : x ∈ mfAdmission p lower) :
    x = "admission_date" ∧ (incl lower "admission" || incl lower "admitted") = true := by
  unfold mfAdmission at h
  split at h
  · simp at h
  · split at h
    · rename_i hcue
      simp at h
      exact ⟨h, hcue⟩
    · simp at h

theorem mfDischarge_cases {p : Extraction} {lower x : String}
    (h : x ∈ mfDischarge p lower) :
    x = "discharge_date" ∧ incl lower "discharge" = true := by
  unfold mfDischarge at h
  split at h
  · simp at h
  · split at h
    · rename_i hcue
      simp at h
      exact ⟨h, hcue⟩
    · simp at h

theorem mfSurgDate_cases {p : Extraction} {lower x : String}
    (h : x ∈ mfSurgDate p lower) :
    x = "surgery_date" ∧
      (incl lower "date of surgery" || incl lower "surgery date") = true := by
  unfold mfSurgDate at h
  split at h
  · simp at h
  · split at h
    · rename_i hcue
      simp at h
      exact ⟨h, hcue⟩
    · simp at h

theorem mfProcedures_cases {p : Extraction} {lower x : String}
    (h : x ∈ mfProcedures p lower) :
    x = "procedures" ∧ (incl lower "procedure" || incl lower "operation") = true := by
  unfold mfProcedures at h
  split at h
  · simp at h
  · split at h
    · rename_i hcue
      simp at h
      exact ⟨h, hcue⟩
    · simp at h

theorem mfPreop_cases {p : Extraction} {lower x : String}
    (h : x ∈ mfPreop p lower) :
    x = "preop_dx" ∧
      (incl lower "preoperative diagnosis" || incl lower "pre-operative diagnosis") = true := by
  unfold mfPreop at h
  split at h
  · simp at h
  · split at h
    · rename_i hcue
      simp at h
      exact ⟨h, hcue⟩
    · simp at h

theorem mfPostop_cases {p : Extraction} {lower x : String}
    (h : x ∈ mfPostop p lower) :
    x = "postop_dx" ∧
      (incl lower "postoperative diagnosis" || incl lower "post-operative diagnosis") = true := by
  unfold mfPostop at h
  split at h
  · simp at h
  · split at h
    · rename_i hcue
      simp at h
      exact ⟨h, hcue⟩
    · simp at h

theorem mfMeds_cases {p : Extraction} {lower x : String}
    (h : x ∈ mfMeds p lower) :
    x = "medications_dose" ∨ x = "medications_frequency" ∨
      (x = "medications" ∧
        (incl lower "medication" || incl lower "analgesia" ||
          incl lower "discharge med") = true) := by
  unfold mfMeds at h
  split at h
  · split at h
    · simp at h
    · split at h
      · simp at h
        exact Or.inl h
      · simp at h
        rcases h with h | h
        · exact Or.inl h
        · exact Or.inr (Or.inl h)
  · split at h
    · rename_i hcue
      simp at h
      exact Or.inr (Or.inr ⟨h, hcue⟩)
    · simp at h

theorem mfAllergies_cases {p : Extraction} {lower x : String}
    (h : x ∈ mfAllergies p lower) :
    x = "allergies_reaction" ∨ (x = "allergies" ∧ incl lower "allerg" = true) := by
  unfold mfAllergies at h
  split at h
  · split at h
    · simp at h
    · split at h
      · simp at h
      · simp at h
        exact Or.inl h
  · split at h
    · rename_i hcue
      simp at h
      exact Or.inr ⟨h, hcue⟩
    · simp at h

theorem missing_mem_elim {x : String} {p : Extraction} {lower : String}
    (h : x ∈ missingFieldsRaw p lower) :
    x ∈ mfPatient p ∨ x ∈ mfMrn p ∨ x ∈ mfAdmission p lower ∨
    x ∈ mfDischarge p lower ∨ x ∈ mfSurgDate p lower ∨
    x ∈ mfProcedures p lower ∨ x ∈ mfPreop p lower ∨ x ∈ mfPostop p lower ∨
    x ∈ mfMeds p lower ∨ x ∈ mfAllergies p lower := by
  unfold missingFieldsRaw at h
  simp only [List.mem_append] at h
  tauto

theorem mem_missingFields {x : String} {p : Extraction} {raw : String} :
    x ∈ (computeFieldConfidence p raw).missing_fields ↔
      x ∈ missingFieldsRaw p (lowerStr raw) := by
  show x ∈ dedupeKeepFirst (missingFieldsRaw p (lowerStr raw)) ↔ _
  exact mem_dedupeKeepFirst

/-- C9 (amended): the date, procedure, diagnosis, medication and allergy
fields are added to the missing-fields list only when a related keyword
appears in the raw text, but `patient_name` and `mrn` are always
reported as missing when absent, with no textual-cue check. -/
theorem c9_missing_fields_cue_policy :
    ∀ (p : Extraction) (raw : String),
      ("admission_date" ∈ (computeFieldConfidence p raw).missing_fields →
        (incl (lowerStr raw) "admission" || incl (lowerStr raw) "admitted") = true) ∧
      ("discharge_date" ∈ (computeFieldConfidence p raw).missing_fields →
        incl (lowerStr raw) "discharge" = true) ∧
      ("surgery_date" ∈ (computeFieldConfidence p raw).missing_fields →
        (incl (lowerStr raw) "date of surgery" || incl (lowerStr raw) "surgery date") = true) ∧
      ("procedures" ∈ (computeFieldConfidence p raw).missing_fields →
        (incl (lowerStr raw) "procedure" || incl (lowerStr raw) "operation") = true) ∧
      ("preop_dx" ∈ (computeFieldConfidence p raw).missing_fields →
        (incl (lowerStr raw) "preoperative diagnosis" ||
          incl (lowerStr raw) "pre-operative diagnosis") = true) ∧
      ("postop_dx" ∈ (computeFieldConfidence p raw).missing_fields →
        (incl (lowerStr raw) "postoperative diagnosis" ||
          incl (lowerStr raw) "post-operative diagnosis") = true) ∧
      ("medications" ∈ (computeFieldConfidence p raw).missing_fields →
        (incl (lowerStr raw) "medication" || incl (lowerStr raw) "analgesia" ||
          incl (lowerStr raw) "discharge med") = true) ∧
      ("allergies" ∈ (computeFieldConfidence p raw).missing_fields →
        incl (lowerStr raw) "allerg" = true) ∧
      (optTruthy p.doc.patient_name = false →
        "patient_name" ∈ (computeFieldConfidence p raw).missing_fields) ∧
      (optTruthy p.doc.mrn = false →
        "mrn" ∈ (computeFieldConfidence p raw).missing_fields) := by
  intro p raw
  refine ⟨?_, ?_, ?_, ?_, ?_, ?_, ?_, ?_, ?_, ?_⟩
  · intro h
    rcases missing_mem_elim (mem_missingFields.mp h) with h|h|h|h|h|h|h|h|h|h
    · exact absurd (mfPatient_cases h) (by decide)
    · exact absurd (mfMrn_cases h) (by decide)
    · exact (mfAdmission_cases h).2
    · exact absurd (mfDischarge_cases h).1 (by decide)
    · exact absurd (mfSurgDate_cases h).1 (by decide)
    · exact absurd (mfProcedures_cases h).1 (by decide)
    · exact absurd (mfPreop_cases h).1 (by decide)
    · exact absurd (mfPostop_cases h).1 (by decide)
    · rcases mfMeds_cases h with h|h|⟨h,-⟩ <;> exact absurd h (by decide)
    · rcases mfAllergies_cases h with h|⟨h,-⟩ <;> exact absurd h (by decide)
  · intro h
    rcases missing_mem_elim (mem_missingFields.mp h) with h|h|h|h|h|h|h|h|h|h
    · exact absurd (mfPatient_cases h) (by decide)
    · exact absurd (mfMrn_cases h) (by decide)
    · exact absurd (mfAdmission_cases h).1 (by decide)
    · exact (mfDischarge_cases h).2
    · exact absurd (mfSurgDate_cases h).1 (by decide)
    · exact absurd (mfProcedures_cases h).1 (by decide)
    · exact absurd (mfPreop_cases h).1 (by decide)
    · exact absurd (mfPostop_cases h).1 (by decide)
    · rcases mfMeds_cases h with h|h|⟨h,-⟩ <;> exact absurd h (by decide)
    · rcases mfAllergies_cases h with h|⟨h,-⟩ <;> exact absurd h (by decide)
  · intro h
    rcases missing_mem_elim (mem_missingFields.mp h) with h|h|h|h|h|h|h|h|h|h
    · exact absurd (mfPatient_cases h) (by decide)
    · exact absurd (mfMrn_cases h) (by decide)
    · exact absurd (mfAdmission_cases h).1 (by decide)
    · exact absurd (mfDischarge_cases h).1 (by decide)
    · exact (mfSurgDate_cases h).2
    · exact absurd (mfProcedures_cases h).1 (by decide)
    · exact absurd (mfPreop_cases h).1 (by decide)
    · exact absurd (mfPostop_cases h).1 (by decide)
    · rcases mfMeds_cases h with h|h|⟨h,-⟩ <;> exact absurd h (by decide)
    · rcases mfAllergies_cases h with h|⟨h,-⟩ <;> exact absurd h (by decide)
  · intro h
    rcases missing_mem_elim (mem_missingFields.mp h) with h|h|h|h|h|h|h|h|h|h
    · exact absurd (mfPatient_cases h) (by decide)
    · exact absurd (mfMrn_cases h) (by decide)
    · exact absurd (mfAdmission_cases h).1 (by decide)
    · exact absurd (mfDischarge_cases h).1 (by decide)
    · exact absurd (mfSurgDate_cases h).1 (by decide)
    · exact (mfProcedures_cases h).2
    · exact absurd (mfPreop_cases h).1 (by decide)
    · exact absurd (mfPostop_cases h).1 (by decide)
    · rcases mfMeds_cases h with h|h|⟨h,-⟩ <;> exact absurd h (by decide)
    · rcases mfAllergies_cases h with h|⟨h,-⟩ <;> exact absurd h (by decide)
  · intro h
    rcases missing_mem_elim (mem_missingFields.mp h) with h|h|h|h|h|h|h|h|h|h
    · exact absurd (mfPatient_cases h) (by decide)
    · exact absurd (mfMrn_cases h) (by decide)
    · exact absurd (mfAdmission_cases h).1 (by decide)
    · exact absurd (mfDischarge_cases h).1 (by decide)
    · exact absurd (mfSurgDate_cases h).1 (by decide)
    · exact absurd (mfProcedures_cases h).1 (by decide)
    · exact (mfPreop_cases h).2
    · exact absurd (mfPostop_cases h).1 (by decide)
    · rcases mfMeds_cases h with h|h|⟨h,-⟩ <;> exact absurd h (by decide)
    · rcases mfAllergies_cases h with h|⟨h,-⟩ <;> exact absurd h (by decide)
  · intro h
    rcases missing_mem_elim (mem_missingFields.mp h) with h|h|h|h|h|h|h|h|h|h
    · exact absurd (mfPatient_cases h) (by decide)
    · exact absurd (mfMrn_cases h) (by decide)
    · exact absurd (mfAdmission_cases h).1 (by decide)
    · exact absurd (mfDischarge_cases h).1 (by decide)
    · exact absurd (mfSurgDate_cases h).1 (by decide)
    · exact absurd (mfProcedures_cases h).1 (by decide)
    · exact absurd (mfPreop_cases h).1 (by decide)
    · exact (mfPostop_cases h).2
    · rcases mfMeds_cases h with h|h|⟨h,-⟩ <;> exact absurd h (by decide)
    · rcases mfAllergies_cases h with h|⟨h,-⟩ <;> exact absurd h (by decide)
  · intro h
    rcases missing_mem_elim (mem_missingFields.mp h) with h|h|h|h|h|h|h|h|h|h
    · exact absurd (mfPatient_cases h) (by decide)
    · exact absurd (mfMrn_cases h) (by decide)
    · exact absurd (mfAdmission_cases h).1 (by decide)
    · exact absurd (mfDischarge_cases h).1 (by decide)
    · exact absurd (mfSurgDate_cases h).1 (by decide)
    · exact absurd (mfProcedures_cases h).1 (by decide)
    · exact absurd (mfPreop_cases h).1 (by decide)
    · exact absurd (mfPostop_cases h).1 (by decide)
    · rcases mfMeds_cases h with h|h|⟨h,hcue⟩
      · exact absurd h (by decide)
      · exact absurd h (by decide)
      · exact hcue
    · rcases mfAllergies_cases h with h|⟨h,-⟩ <;> exact absurd h (by decide)
  · intro h
    rcases missing_mem_elim (mem_missingFields.mp h) with h|h|h|h|h|h|h|h|h|h
    · exact absurd (mfPatient_cases h) (by decide)
    · exact absurd (mfMrn_cases h) (by decide)
    · exact absurd (mfAdmission_cases h).1 (by decide)
    · exact absurd (mfDischarge_cases h).1 (by decide)
    · exact absurd (mfSurgDate_cases h).1 (by decide)
    · exact absurd (mfProcedures_cases h).1 (by decide)
    · exact absurd (mfPreop_cases h).1 (by decide)
    · exact absurd (mfPostop_cases h).1 (by decide)
    · rcases mfMeds_cases h with h|h|⟨h,-⟩ <;> exact absurd h (by decide)
    · rcases mfAllergies_cases h with h|⟨h,hcue⟩
      · exact absurd h (by decide)
      · exact hcue
  · intro h0
    rw [mem_missingFields]
    have hx : "patient_name" ∈ mfPatient p := by
      simp [mfPatient, h0]
    unfold missingFieldsRaw
    exact List.mem_append_left _ (List.mem_append_left _ (List.mem_append_left _
      (List.mem_append_left _ (List.mem_append_left _ (List.mem_append_left _
      (List.mem_append_left _ (List.mem_append_left _ (List.mem_append_left _ hx))))))))
  · intro h0
    rw [mem_missingFields]
    have hx : "mrn" ∈ mfMrn p := by
      simp [mfMrn, h0]
    unfold missingFieldsRaw
    exact List.mem_append_left _ (List.mem_append_left _ (List.mem_append_left _
      (List.mem_append_left _ (List.mem_append_left _ (List.mem_append_left _
      (List.mem_append_left _ (List.mem_append_left _ (List.mem_append_right _ hx))))))))

/-- Witness for C9 (amended) at a concrete input: the unconditional
`patient_name` report on an empty extraction with empty raw text. -/
theorem c9_witness :
    "patient_name" ∈ (computeFieldConfidence {} "").missing_fields :=
  (c9_missing_fields_cue_policy {} "").2.2.2.2.2.2.2.2.1 rfl

theorem lookup_upsert_self (l : List (String × String)) (k v : String) :
    lookupKey (upsert l k v) k = some v := by
  induction l with
  | nil => simp [upsert, lookupKey, List.find?]
  | cons p t ih =>
    obtain ⟨k0, v0⟩ := p
    unfold upsert
    split
    · rename_i he
      simp [lookupKey, List.find?, he]
    · rename_i he
      simpa [lookupKey, List.find?, he] using ih

theorem lookup_upsert_ne {l : List (String × String)} {k v k2 : String}
    (h : k2 ≠ k) : lookupKey (upsert l k v) k2 = lookupKey l k2 := by
  induction l with
  | nil => simp [upsert, lookupKey, List.find?, Ne.symm h]
  | cons p t ih =>
    obtain ⟨k0, v0⟩ := p
    unfold upsert
    split
    · rename_i he
      subst he
      simp [lookupKey, List.find?, Ne.symm h]
    · by_cases hk2 : k0 = k2
      · subst hk2
        simp [lookupKey, List.find?]
      · simpa [lookupKey, List.find?, hk2] using ih

theorem sliceStep_header {st : SliceState} {line h : String}
    (hm : matchHeaderLine line = some h) :
    (sliceStep st line).currentHeader = some h ∧
      (sliceStep st line).currentContent = [] := by
  unfold sliceStep
  rw [hm]
  cases st.currentHeader <;> exact ⟨rfl, rfl⟩

theorem sliceStep_none_header {st : SliceState} {line : String}
    (hm : matchHeaderLine line = none) :
    (sliceStep st line).currentHeader = st.currentHeader := by
  unfold sliceStep
  rw [hm]
  cases hch : st.currentHeader with
  | some ch => rfl
  | none => exact hch

theorem slice_lookup_noK (k : String) :
    ∀ (B : List String) (st : SliceState),
      (∀ hl, st.currentHeader = some hl → normalizeHeaderKey hl ≠ k) →
      (∀ b ∈ B, ∀ v, matchHeaderLine b = some v → normalizeHeaderKey v ≠ k) →
      lookupKey (sliceFinish (B.foldl sliceStep st)) k = lookupKey st.sections k := by
  intro B
  induction B with
  | nil =>
    intro st hcur _
    simp only [List.foldl_nil]
    unfold sliceFinish
    split
    · rename_i ch hch
      exact lookup_upsert_ne (Ne.symm (hcur ch hch))
    · rfl
  | cons b B ih =>
    intro st hcur hb
    rw [List.foldl_cons]
    cases hm : matchHeaderLine b with
    | some v =>
      have hvk : normalizeHeaderKey v ≠ k :=
        hb b (List.mem_cons_self b B) v hm
      refine (ih (sliceStep st b) ?_ ?_).trans ?_
      · intro hl hhl
        rw [(sliceStep_header hm).1] at hhl
        cases hhl
        exact hvk
      · intro b2 hb2 v2 hm2
        exact hb b2 (List.mem_cons_of_mem _ hb2) v2 hm2
      · unfold sliceStep
        rw [hm]
        cases hch : st.currentHeader with
        | some ch => exact lookup_upsert_ne (Ne.symm (hcur ch hch))
        | none => rfl
    | none =>
      refine (ih (sliceStep st b) ?_ ?_).trans ?_
      · intro hl hhl
        rw [sliceStep_none_header hm] at hhl
        exact hcur hl hhl
      · intro b2 hb2 v2 hm2
        exact hb b2 (List.mem_cons_of_mem _ hb2) v2 hm2
      · unfold sliceStep
        rw [hm]
        cases st.currentHeader <;> rfl

theorem slice_lookup_withK (k : String) :
    ∀ (B : List String) (st : SliceState) (ch : String),
      st.currentHeader = some ch → normalizeHeaderKey ch = k →
      (∀ b ∈ B, ∀ v, matchHeaderLine b = some v → normalizeHeaderKey v ≠ k) →
      lookupKey (sliceFinish (B.foldl sliceStep st)) k =
        some (trimStr (joinNl (st.currentContent ++
          B.takeWhile fun b => (matchHeaderLine b).isNone))) := by
  intro B
  induction B with
  | nil =>
    intro st ch hch hk _
    simp only [List.foldl_nil, List.takeWhile_nil, List.append_nil]
    unfold sliceFinish
    rw [hch]
    show lookupKey (upsert st.sections (normalizeHeaderKey ch)
      (trimStr (joinNl st.currentContent))) k = _
    rw [hk]
    exact lookup_upsert_self _ _ _
  | cons b B ih =>
    intro st ch hch hk hb
    rw [List.foldl_cons]
    cases hm : matchHeaderLine b with
    | none =>
      have hstep : sliceStep st b =
          { st with currentContent := st.currentContent ++ [b] } := by
        unfold sliceStep
        rw [hm, hch]
      rw [hstep]
      have hrec := ih { st with currentContent := st.currentContent ++ [b] } ch
        hch hk (fun b2 hb2 v2 hm2 => hb b2 (List.mem_cons_of_mem _ hb2) v2 hm2)
      rw [hrec]
      have htw : (b :: B).takeWhile (fun b => (matchHeaderLine b).isNone) =
          b :: B.takeWhile fun b => (matchHeaderLine b).isNone := by
        rw [List.takeWhile_cons_of_pos]
        rw [hm]
        rfl
      rw [htw, List.append_assoc]
      rfl
    | some v =>
      have hvk : normalizeHeaderKey v ≠ k := hb b (List.mem_cons_self b B) v hm
      have hstep : sliceStep st b =
          { sections := upsert st.sections (normalizeHeaderKey ch)
              (trimStr (joinNl st.currentContent))
            currentHeader := some v, currentContent := [] } := by
        unfold sliceStep
        rw [hm, hch]
      rw [hstep]
      have hrec := slice_lookup_noK k B
        { sections := upsert st.sections (normalizeHeaderKey ch)
            (trimStr (joinNl st.currentContent))
          currentHeader := some v, currentContent := [] }
        (by intro hl hhl; cases hhl; exact hvk)
        (fun b2 hb2 v2 hm2 => hb b2 (List.mem_cons_of_mem _ hb2) v2 hm2)
      rw [hrec]
      have htw : (b :: B).takeWhile (fun b => (matchHeaderLine b).isNone) = [] := by
        rw [List.takeWhile_cons_of_neg]
        rw [hm]
        simp
      rw [htw, List.append_nil]
      show lookupKey (upsert st.sections (normalizeHeaderKey ch) _) k = _
      rw [hk]
      exact lookup_upsert_self _ _ _

theorem mem_upsert_keys {l : List (String × String)} {k v x : String}
    (h : x ∈ (upsert l k v).map Prod.fst) : x ∈ l.map Prod.fst ∨ x = k := by
  induction l with
  | nil =>
    unfold upsert at h
    simp at h
    exact Or.inr h
  | cons p t ih =>
    obtain ⟨k0, v0⟩ := p
    unfold upsert at h
    split at h
    · rename_i he
      rw [List.map_cons] at h ⊢
      exact Or.inl h
    · rw [List.map_cons] at h ⊢
      rcases List.mem_cons.mp h with h1 | h2
      · exact Or.inl (List.mem_cons.mpr (Or.inl h1))
      · rcases ih h2 with h3 | h3
        · exact Or.inl (List.mem_cons.mpr (Or.inr h3))
        · exact Or.inr h3

theorem upsert_keys_nodup {l : List (String × String)} {k v : String}
    (h : (l.map Prod.fst).Nodup) : ((upsert l k v).map Prod.fst).Nodup := by
  induction l with
  | nil => simp [upsert]
  | cons p t ih =>
    obtain ⟨k0, v0⟩ := p
    rw [List.map_cons, List.nodup_cons] at h
    unfold upsert
    split
    · rename_i he
      rw [List.map_cons, List.nodup_cons]
      exact ⟨h.1, h.2⟩
    · rename_i he
      rw [List.map_cons, List.nodup_cons]
      refine ⟨?_, ih h.2⟩
      intro hmem
      rcases mem_upsert_keys hmem with h3 | h3
      · exact h.1 h3
      · exact he (h3 ▸ rfl)

theorem slice_keys_nodup :
    ∀ (B : List String) (st : SliceState),
      (st.sections.map Prod.fst).Nodup →
      ((sliceFinish (B.foldl sliceStep st)).map Prod.fst).Nodup := by
  intro B
  induction B with
  | nil =>
    intro st h
    simp only [List.foldl_nil]
    unfold sliceFinish
    split
    · exact upsert_keys_nodup h
    · exact h
  | cons b B ih =>
    intro st h
    rw [List.foldl_cons]
    refine ih (sliceStep st b) ?_
    unfold sliceStep
    cases matchHeaderLine b with
    | some v =>
      cases st.currentHeader with
      | some ch => exact upsert_keys_nodup h
      | none => exact h
    | none =>
      cases st.currentHeader <;> exact h

theorem sliceByHeaders_keys_nodup (text : String) :
    ((sliceByHeaders text).map Prod.fst).Nodup := by
  unfold sliceByHeaders
  exact slice_keys_nodup _ _ (by simp)

/-- C10: when two header-only lines normalising to the same canonical
key occur in a document (and no later line carries that key), the slicer
maps that key to the trimmed body following the later occurrence — the
later body replaces the earlier one — and the section map has no
duplicate keys. -/
theorem c10_later_header_occurrence_wins :
    ∀ (text : String) (L1 L2 L3 : List String) (h1 h2 v1 v2 k : String),
      (splitChar '\n' text.toList).map String.mk = L1 ++ [h1] ++ L2 ++ [h2] ++ L3 →
      matchHeaderLine h1 = some v1 → matchHeaderLine h2 = some v2 →
      normalizeHeaderKey v1 = k → normalizeHeaderKey v2 = k →
      (∀ b ∈ L3, ∀ v, matchHeaderLine b = some v → normalizeHeaderKey v ≠ k) →
      lookupKey (sliceByHeaders text) k =
        some (trimStr (joinNl (L3.takeWhile fun b => (matchHeaderLine b).isNone))) ∧
      ((sliceByHeaders text).map Prod.fst).Nodup := by
  intro text L1 L2 L3 h1 h2 v1 v2 k hlines hm1 hm2 hk1 hk2 hL3
  refine ⟨?_, sliceByHeaders_keys_nodup text⟩
  unfold sliceByHeaders
  rw [hlines]
  have hassoc : L1 ++ [h1] ++ L2 ++ [h2] ++ L3 =
      ((L1 ++ [h1] ++ L2) ++ [h2]) ++ L3 := by
    simp [List.append_assoc]
  rw [hassoc, List.foldl_append, List.foldl_append]
  set st1 := (L1 ++ [h1] ++ L2).foldl sliceStep ⟨[], none, []⟩ with hst1
  have hstep := @sliceStep_header st1 h2 v2 hm2
  have := slice_lookup_withK k L3 (List.foldl sliceStep st1 [h2]) v2
    (by simpa using hstep.1) hk2 hL3
  rw [this]
  have hcc : (List.foldl sliceStep st1 [h2]).currentContent = [] := by
    simpa using hstep.2
  rw [hcc]
  rfl

/-- Witness for C10 at a concrete document: two `Allergies` headers, the
later body `baz` winning. -/
theorem c10_witness :
    lookupKey (sliceByHeaders "Allergies\nfoo\nMedications\nbar\nAllergies:\nbaz")
        "allergies" =
      some (trimStr (joinNl (["baz"].takeWhile fun b => (matchHeaderLine b).isNone))) ∧
    ((sliceByHeaders "Allergies\nfoo\nMedications\nbar\nAllergies:\nbaz").map
      Prod.fst).Nodup :=
  c10_later_header_occurrence_wins
    "Allergies\nfoo\nMedications\nbar\nAllergies:\nbaz"
    [] ["foo", "Medications", "bar"] ["baz"] "Allergies" "Allergies:"
    "Allergies" "Allergies" "allergies"
    (by decide) (by decide) (by decide) (by decide) (by decide) (by decide)

end MedExtract
